import Mathlib

/-!
Verification development for the `adk` agent controller.

The definitions below are a shallow embedding of the Python sources under
`controller/`:

* `controller/services/planner.py`   — JSON reply parsing and history replay
* `controller/services/tools.py`     — the tool registry
* `controller/services/sandbox.py`   — the sandbox executor's dispatch layer
* `controller/services/identity.py`  — SPIFFE-ID authorization
* `controller/handlers/task_handler.py` — the task reconciler
* `controller/handlers/run_handler.py`  — the per-run execution engine

Python strings are modelled as Lean `String` (sequences of Unicode scalar
values; Python strings containing lone surrogates are outside the model).
JSON numbers are modelled as integers: floating-point literals are outside
the scope of this embedding, so the modelled JSON reader rejects them where
Python's would produce a float.  Wall-clock instants are modelled as
rationals supplied by an environment oracle.
-/

/-! ## Python string primitives (code-point level) -/

/-- Python `str.startswith`: the candidate is a prefix of the code points. -/
def pyStartsWith (s pre : List Char) : Bool := pre.isPrefixOf s

/-- Python `str.endswith`: the candidate is a suffix of the code points. -/
def pyEndsWith (s suf : List Char) : Bool := suf.isSuffixOf s

/-- The whitespace class stripped by Python `str.strip()` (ASCII part;
Unicode space category is not exercised by the sources). -/
def pyIsSpace (c : Char) : Bool :=
  c = ' ' || c = '\t' || c = '\n' || c = '\x0d' || c = '\x0b' || c = '\x0c'

/-- Python `str.strip()` on code points. -/
def pyStrip (l : List Char) : List Char :=
  ((l.dropWhile pyIsSpace).reverse.dropWhile pyIsSpace).reverse

/-! ## The JSON value model

`Json` models a Python value as produced by `json.loads` / consumed by
`json.dumps`: `null` is Python `None`, objects are insertion-ordered dicts.
Mutual inductives (instead of nested `List`) give a clean mutual induction
principle. -/

mutual

inductive Json where
  | null : Json
  | bool (b : Bool) : Json
  | num (n : Int) : Json
  | str (s : String) : Json
  | arr (a : JsonArr) : Json
  | obj (o : JsonObj) : Json

inductive JsonArr where
  | nil : JsonArr
  | cons (hd : Json) (tl : JsonArr) : JsonArr

inductive JsonObj where
  | nil : JsonObj
  | cons (k : String) (v : Json) (tl : JsonObj) : JsonObj

end

/-- First-match lookup in a JSON object (Python `dict` access; dicts built
by the sources have unique keys). -/
def JsonObj.get? : JsonObj → String → Option Json
  | .nil, _ => none
  | .cons k v tl, key => if k = key then some v else JsonObj.get? tl key

/-- Python `dict.get(key, default)`: the default applies only when the key
is absent (a key bound to `null`/None is returned as such). -/
def JsonObj.getD (o : JsonObj) (key : String) (dflt : Json) : Json :=
  (o.get? key).getD dflt

/-- The keys of a JSON object, in order. -/
def JsonObj.keys : JsonObj → List String
  | .nil => []
  | .cons k _ tl => k :: JsonObj.keys tl

/-- Python `x == "lit"` where `x` is an arbitrary decoded JSON value:
true exactly when `x` is that string. -/
def Json.eqStr : Json → String → Bool
  | .str s, t => s = t
  | _, _ => false

/-- The Python type name of a decoded JSON value (used to render
`AttributeError` messages faithfully). -/
def Json.pyTypeName : Json → String
  | .null => "NoneType"
  | .bool _ => "bool"
  | .num _ => "int"
  | .str _ => "str"
  | .arr _ => "list"
  | .obj _ => "dict"

/-! ### Node counts (fuel bounds for the reader) -/

mutual

def jsizeV : Json → Nat
  | .null => 1
  | .bool _ => 1
  | .num _ => 1
  | .str _ => 1
  | .arr a => 1 + jsizeA a
  | .obj o => 1 + jsizeO o

def jsizeA : JsonArr → Nat
  | .nil => 0
  | .cons v tl => 1 + jsizeV v + jsizeA tl

def jsizeO : JsonObj → Nat
  | .nil => 0
  | .cons _ v tl => 1 + jsizeV v + jsizeO tl

end

/-! ## Decimal rendering of integers (Python `str(int)`) -/

/-- The character for a decimal digit value. -/
def digitCh (k : Nat) : Char := Char.ofNat (48 + k)

/-- Decimal digits of a natural number, most significant first
(the canonical form emitted by Python `str`). -/
def natToChars (n : Nat) : List Char :=
  if _h : n < 10 then [digitCh n]
  else natToChars (n / 10) ++ [digitCh (n % 10)]
termination_by n
decreasing_by omega

/-- Python `str` of an `int`, as code points. -/
def intChars (i : Int) : List Char :=
  if i < 0 then '-' :: natToChars (-i).toNat else natToChars i.toNat

/-! ## String escaping (Python `json.dumps`, `ensure_ascii=True`) -/

/-- Lowercase hex digit character for a value below 16. -/
def hexDigitCh (k : Nat) : Char :=
  if k < 10 then Char.ofNat (48 + k) else Char.ofNat (87 + k)

/-- Four-digit lowercase hex rendering (`'\uXXXX'` payload). -/
def toHex4 (n : Nat) : List Char :=
  [hexDigitCh (n / 4096 % 16), hexDigitCh (n / 256 % 16),
   hexDigitCh (n / 16 % 16), hexDigitCh (n % 16)]

/-- Value of one hex digit character (upper or lower case). -/
def hexVal? (c : Char) : Option Nat :=
  if '0' ≤ c ∧ c ≤ '9' then some (c.toNat - 48)
  else if 'a' ≤ c ∧ c ≤ 'f' then some (c.toNat - 87)
  else if 'A' ≤ c ∧ c ≤ 'F' then some (c.toNat - 55)
  else none

/-- `json.dumps` escaping of one code point (`ensure_ascii=True`):
shortcut escapes, printable ASCII verbatim, `\uXXXX` otherwise, with a
surrogate pair for astral code points. -/
def escapeChar (c : Char) : List Char :=
  if c = '"' then ['\\', '"']
  else if c = '\\' then ['\\', '\\']
  else if c = '\x08' then ['\\', 'b']
  else if c = '\t' then ['\\', 't']
  else if c = '\n' then ['\\', 'n']
  else if c = '\x0c' then ['\\', 'f']
  else if c = '\x0d' then ['\\', 'r']
  else if 0x20 ≤ c.toNat ∧ c.toNat ≤ 0x7e then [c]
  else if c.toNat < 0x10000 then '\\' :: 'u' :: toHex4 c.toNat
  else
    ('\\' :: 'u' :: toHex4 (0xd800 + (c.toNat - 0x10000) / 0x400)) ++
      ('\\' :: 'u' :: toHex4 (0xdc00 + (c.toNat - 0x10000) % 0x400))

/-- Escape a whole code-point sequence. -/
def escapeChars : List Char → List Char
  | [] => []
  | c :: l => escapeChar c ++ escapeChars l

/-! ## JSON string-literal reading (Python `json.loads`, strict mode) -/

/-- Unescaped form of a single-character escape (`\" \\ \/ \b \f \n \r \t`). -/
def simpleEsc? (e : Char) : Option Char :=
  if e = '"' then some '"'
  else if e = '\\' then some '\\'
  else if e = '/' then some '/'
  else if e = 'b' then some '\x08'
  else if e = 'f' then some '\x0c'
  else if e = 'n' then some '\n'
  else if e = 'r' then some '\x0d'
  else if e = 't' then some '\t'
  else none

/-- Combine four hex digit characters into a code unit. -/
def hex4? (a b c d : Char) : Option Nat :=
  (hexVal? a).bind fun x =>
    (hexVal? b).bind fun y =>
      (hexVal? c).bind fun z =>
        (hexVal? d).map fun w => ((x * 16 + y) * 16 + z) * 16 + w

mutual

/-- Read a JSON string body up to (and consuming) the closing quote,
returning the decoded code points and the remaining input.  Mirrors
Python's strict scanner: raw control characters are rejected, `\uXXXX`
surrogate pairs are combined.  (Python tolerates lone surrogates; Lean
code points cannot represent them, so the model rejects them — `dumps`
output of well-formed strings never contains them.) -/
def parseStrBody : List Char → Option (List Char × List Char)
  | [] => none
  | c :: input =>
    if c = '"' then some ([], input)
    else if c = '\\' then parseEsc input
    else if c.toNat < 0x20 then none
    else (parseStrBody input).map fun p => (c :: p.1, p.2)
termination_by l => l.length + 1
decreasing_by all_goals simp

/-- Read the remainder of a backslash escape. -/
def parseEsc : List Char → Option (List Char × List Char)
  | [] => none
  | e :: input2 =>
    if e = 'u' then parseU input2
    else
      match simpleEsc? e with
      | none => none
      | some ch => (parseStrBody input2).map fun p => (ch :: p.1, p.2)
termination_by l => l.length + 1
decreasing_by all_goals simp

/-- Read the `XXXX` of a `\uXXXX` escape (plus a following low surrogate
when `XXXX` is a high surrogate). -/
def parseU : List Char → Option (List Char × List Char)
  | a :: b :: c :: d :: input3 =>
    match hex4? a b c d with
    | none => none
    | some n =>
      if n < 0xd800 ∨ 0xdfff < n then
        (parseStrBody input3).map fun p => (Char.ofNat n :: p.1, p.2)
      else if n ≤ 0xdbff then parseLo n input3
      else none
  | _ => none
termination_by l => l.length + 1
decreasing_by all_goals simp

/-- Read the `\uXXXX` low-surrogate partner and combine the pair. -/
def parseLo : Nat → List Char → Option (List Char × List Char)
  | n, e2 :: u2 :: a2 :: b2 :: c2 :: d2 :: input4 =>
    if e2 = '\\' ∧ u2 = 'u' then
      match hex4? a2 b2 c2 d2 with
      | none => none
      | some m =>
        if 0xdc00 ≤ m ∧ m ≤ 0xdfff then
          (parseStrBody input4).map fun p =>
            (Char.ofNat (0x10000 + (n - 0xd800) * 0x400 + (m - 0xdc00)) :: p.1, p.2)
        else none
    else none
  | _, _ => none
termination_by _ l => l.length + 1
decreasing_by all_goals simp

end

/-! ## JSON serialization (Python `json.dumps`, default separators) -/

mutual

/-- `json.dumps(v)` with default separators (`", "` and `": "`),
`ensure_ascii=True`, no indent — exactly the call sites in `planner.py`
line 129 and the sandbox driver. -/
def dumpsV : Json → List Char
  | .null => 'n' :: ['u', 'l', 'l']
  | .bool true => 't' :: ['r', 'u', 'e']
  | .bool false => 'f' :: ['a', 'l', 's', 'e']
  | .num i => intChars i
  | .str s => '"' :: escapeChars s.data ++ ['"']
  | .arr .nil => ['[', ']']
  | .arr (.cons v tl) => '[' :: (dumpsV v ++ joinArr tl) ++ [']']
  | .obj .nil => ['{', '}']
  | .obj (.cons k v tl) => '{' :: (memberChars k v ++ joinObj tl) ++ ['}']

/-- Remaining array items, each preceded by `", "`. -/
def joinArr : JsonArr → List Char
  | .nil => []
  | .cons v tl => ',' :: ' ' :: (dumpsV v ++ joinArr tl)

/-- One object member: quoted escaped key, `": "`, value. -/
def memberChars (k : String) (v : Json) : List Char :=
  '"' :: escapeChars k.data ++ '"' :: ':' :: ' ' :: dumpsV v

/-- Remaining object members, each preceded by `", "`. -/
def joinObj : JsonObj → List Char
  | .nil => []
  | .cons k v tl => ',' :: ' ' :: (memberChars k v ++ joinObj tl)

end

/-! ## JSON value reading (Python `json.loads`)

The reader skips JSON whitespace between tokens and is exact on the
integer fragment of JSON; number forms that would decode to Python floats
(`.`/`e` parts, `NaN`, `Infinity`) are outside the model and rejected. -/

/-- JSON whitespace (space, tab, newline, carriage return). -/
def isJWs (c : Char) : Bool := c = ' ' || c = '\t' || c = '\n' || c = '\x0d'

/-- Skip JSON whitespace. -/
def skipWs (l : List Char) : List Char := l.dropWhile isJWs

/-- True when the input cannot extend a just-read integer literal
(end of input, or a character that is neither a digit nor a float marker). -/
def numBoundary : List Char → Bool
  | [] => true
  | c :: _ => !(c.isDigit || c = '.' || c = 'e' || c = 'E')

/-- Read a natural-number literal (JSON forbids leading zeros; a float
marker after the digits is rejected — floats are outside the model). -/
def parseNatLit : List Char → Option (Nat × List Char)
  | [] => none
  | c :: rest =>
    if c = '0' then
      if numBoundary rest then some (0, rest) else none
    else if c.isDigit then
      let ds := List.takeWhile Char.isDigit (c :: rest)
      let rest' := List.dropWhile Char.isDigit (c :: rest)
      if numBoundary rest' then
        some (ds.foldl (fun a ch => a * 10 + (ch.toNat - '0'.toNat)) 0, rest')
      else none
    else none

/-- Expect a literal tail (`rue`, `alse`, `ull`), returning the remainder. -/
def dropLit : List Char → List Char → Option (List Char)
  | [], rest => some rest
  | c :: cs, d :: rest => if c = d then dropLit cs rest else none
  | _ :: _, [] => none

mutual

/-- Read one JSON value (fuel-indexed; `loads` supplies ample fuel). -/
def parseV : Nat → List Char → Option (Json × List Char)
  | 0, _ => none
  | fuel + 1, input =>
    match skipWs input with
    | [] => none
    | c :: rest =>
      if c = '"' then (parseStrBody rest).map fun p => (Json.str (String.mk p.1), p.2)
      else if c = '{' then
        match skipWs rest with
        | [] => none
        | c2 :: r2 =>
          if c2 = '}' then some (Json.obj .nil, r2)
          else (parseMembers fuel (c2 :: r2)).map fun p => (Json.obj p.1, p.2)
      else if c = '[' then
        match skipWs rest with
        | [] => none
        | c2 :: r2 =>
          if c2 = ']' then some (Json.arr .nil, r2)
          else (parseItems fuel (c2 :: r2)).map fun p => (Json.arr p.1, p.2)
      else if c = 't' then (dropLit ['r', 'u', 'e'] rest).map fun r => (Json.bool true, r)
      else if c = 'f' then (dropLit ['a', 'l', 's', 'e'] rest).map fun r => (Json.bool false, r)
      else if c = 'n' then (dropLit ['u', 'l', 'l'] rest).map fun r => (Json.null, r)
      else if c = '-' then (parseNatLit rest).map fun p => (Json.num (-(p.1 : Int)), p.2)
      else if c.isDigit then (parseNatLit (c :: rest)).map fun p => (Json.num (p.1 : Int), p.2)
      else none

/-- Read the elements of a non-empty array, up to the closing bracket. -/
def parseItems : Nat → List Char → Option (JsonArr × List Char)
  | 0, _ => none
  | fuel + 1, input =>
    match parseV fuel input with
    | none => none
    | some (v, rest) =>
      match skipWs rest with
      | [] => none
      | c :: r =>
        if c = ',' then (parseItems fuel r).map fun p => (JsonArr.cons v p.1, p.2)
        else if c = ']' then some (JsonArr.cons v .nil, r)
        else none

/-- Read the members of a non-empty object, up to the closing brace. -/
def parseMembers : Nat → List Char → Option (JsonObj × List Char)
  | 0, _ => none
  | fuel + 1, input =>
    match skipWs input with
    | [] => none
    | c :: rest =>
      if c = '"' then
        match parseStrBody rest with
        | none => none
        | some (k, rest2) =>
          match skipWs rest2 with
          | [] => none
          | c2 :: rest3 =>
            if c2 = ':' then
              match parseV fuel rest3 with
              | none => none
              | some (v, rest4) =>
                match skipWs rest4 with
                | [] => none
                | c3 :: rest5 =>
                  if c3 = ',' then
                    (parseMembers fuel rest5).map fun p =>
                      (JsonObj.cons (String.mk k) v p.1, p.2)
                  else if c3 = '}' then some (JsonObj.cons (String.mk k) v .nil, rest5)
                  else none
            else none
      else none

end

/-- `json.loads`: read one value and require only whitespace to remain. -/
def loads (l : List Char) : Option Json :=
  match parseV (l.length + 1) l with
  | none => none
  | some (v, rest) => if (skipWs rest).isEmpty then some v else none

/-! ## Planner reply parsing (`controller/services/planner.py`) -/

/-- The `PlannerResponse` dataclass.  `thought`, `tool_name`, `tool_args`
and `final_answer` hold decoded JSON values (Python `None` is `Json.null`);
`action` is always assigned a literal `"tool_call"` / `"finish"` by the
parser. -/
structure PlannerResponse where
  action : String
  thought : Json
  tool_name : Json := .null
  tool_args : Json := .null
  final_answer : Json := .null
  tokens_used : Nat := 0

/-- The backquote character (0x60). -/
def backquote : Char := Char.ofNat 96

/-- A markdown fence: three backquotes. -/
def fence : List Char := [backquote, backquote, backquote]

/-- `_parse_response` lines 197-204: if the stripped content starts with
a fence, drop the first line (it starts with the fence) and, when the last
line strips to a bare fence, drop it too; rejoin with newlines. -/
def stripFence (l : List Char) : List Char :=
  if pyStartsWith l fence then
    let lines1 := l.splitOn '\n'
    let lines2 := if pyStartsWith (lines1.headD []) fence then lines1.tail else lines1
    let lines3 :=
      if lines2 ≠ [] ∧ pyStrip (lines2.getLastD []) = fence then lines2.dropLast
      else lines2
    List.intercalate ['\n'] lines3
  else l

/-- `_parse_response` lines 194-204: whitespace strip, then fence strip. -/
def processContent (content : String) : List Char :=
  stripFence (pyStrip content.data)

/-- `Planner._parse_response` (lines 190-236).  The `Except.error` case
models the `AttributeError` Python raises when `json.loads` yields a
non-dict value and the code calls `data.get(...)` on it; that exception
propagates out of `plan` into the run engine. -/
def parse_response (content : String) (tokens_used : Nat) : Except String PlannerResponse :=
  let c := processContent content
  match loads c with
  | none =>
    .ok { action := "finish",
          thought := .str "Failed to parse response, treating as final answer",
          final_answer := .str (String.mk c),
          tokens_used := tokens_used }
  | some (.obj data) =>
    let action := data.getD "action" (.str "finish")
    let thought := data.getD "thought" (.str "")
    if action.eqStr "tool_call" then
      .ok { action := "tool_call", thought := thought,
            tool_name := data.getD "tool" .null,
            tool_args := data.getD "args" (.obj .nil),
            tokens_used := tokens_used }
    else
      .ok { action := "finish", thought := thought,
            final_answer := data.getD "answer" thought,
            tokens_used := tokens_used }
  | some v =>
    .error ("'" ++ v.pyTypeName ++ "' object has no attribute 'get'")

/-- `Planner.plan` lines 128-134: the history-replay serialization of an
assistant `tool_call` entry, `json.dumps({"action": "tool_call",
"thought": t, "tool": n, "args": a})`. -/
def serialize_tool_call_entry (thought tool : String) (args : JsonObj) : String :=
  String.mk (dumpsV (Json.obj (.cons "action" (.str "tool_call")
    (.cons "thought" (.str thought) (.cons "tool" (.str tool)
      (.cons "args" (.obj args) .nil))))))

/-! ## Tool registry (`controller/services/tools.py`) -/

/-- The `ToolDefinition` dataclass. -/
structure ToolDefinition where
  name : String
  description : String
  parameters : Json
  execution_type : String
  code : String
  requires_network : Bool := false
  http_method : String := "GET"
  http_url : String := ""
  allowed_agents : List String := []

/-- The `ToolInfo` dataclass handed to the planner. -/
structure ToolInfo where
  name : String
  description : String
  parameters : Json

/-- The registry's `_tools` dict, modelled as its insertion-ordered entry
list; `register` keys every entry by `tool.name`, so the key is the
`name` field itself. -/
def get_tool (tools : List ToolDefinition) (name : String) : Option ToolDefinition :=
  tools.find? fun t => t.name == name

/-- `ToolRegistry.get_tools_for_agent` (lines 299-323): skip a tool iff the
allowed list is non-empty (Python truthiness) and does not contain its
name. -/
def get_tools_for_agent (tools : List ToolDefinition) (allowed_tools : List String) :
    List ToolInfo :=
  tools.filterMap fun t =>
    if allowed_tools ≠ [] ∧ t.name ∉ allowed_tools then none
    else some ⟨t.name, t.description, t.parameters⟩

/-! ## Sandbox executor (`controller/services/sandbox.py`) -/

/-- The `ExecutionResult` dataclass. -/
structure ExecutionResult where
  success : Bool
  output : Option String := none
  error : Option String := none
  exit_code : Int := 0
  execution_time_ms : Nat := 0

/-- `SandboxExecutor.execute_tool` (lines 60-99): resolve the tool by name;
unknown names produce the `"Unknown tool: <name>"` failure, known tools
dispatch on `execution_type` (the container/HTTP execution itself is I/O
and is supplied as the oracle `runExec`). -/
def execute_tool (tools : List ToolDefinition) (tool_name : String) (tool_args : Json)
    (timeout : ℚ) (runExec : ToolDefinition → Json → ℚ → ExecutionResult) :
    ExecutionResult :=
  match get_tool tools tool_name with
  | none => { success := false, error := some ("Unknown tool: " ++ tool_name) }
  | some tool =>
    if tool.execution_type = "python" ∨ tool.execution_type = "shell" ∨
        tool.execution_type = "http" then
      runExec tool tool_args timeout
    else
      { success := false,
        error := some ("Unsupported execution type: " ++ tool.execution_type) }

/-! ## SPIFFE authorization (`controller/services/identity.py`) -/

/-- `IdentityProvider.is_authorized` (lines 447-470): an empty allow-list
authorizes everything; an entry ending in `/*` matches by prefix after
dropping only the `*`; other entries match exactly. -/
def is_authorized (spiffe_id : String) (allowed_ids : List String) : Bool :=
  if allowed_ids.isEmpty then true
  else
    allowed_ids.any fun allowed =>
      if pyEndsWith allowed.data ['/', '*'] then
        pyStartsWith spiffe_id.data allowed.data.dropLast
      else spiffe_id == allowed

/-! ## Task reconciler (`controller/handlers/task_handler.py`) -/

/-- A Kubernetes owner reference as built by the handlers. -/
structure OwnerReference where
  apiVersion : String
  kind : String
  name : String
  uid : Option String
  controller : Bool
  blockOwnerDeletion : Bool

/-- Metadata of a created resource (label values are `spec.get` results,
hence optional). -/
structure ObjectMeta where
  name : String
  nspace : String
  labels : List (String × Option String)
  ownerReferences : List OwnerReference

/-- An AgentRun's `spec` dict as read with `spec.get` (absent keys are
`none`). -/
structure AgentRunSpec where
  agentRef : Option String := none
  taskRef : Option String := none
  goal : Option String := none
  context : Json := .obj .nil
  maxSteps : Option Nat := none
  timeout : Option ℚ := none

/-- The body of an AgentRun passed to `create_namespaced_custom_object`. -/
structure AgentRunBody where
  apiVersion : String
  kind : String
  metadata : ObjectMeta
  spec : AgentRunSpec

/-- An AgentTask's `spec` dict. -/
structure AgentTaskSpec where
  agentRef : Option String := none
  goal : Option String := none
  context : Option Json := none
  maxRetries : Option Nat := none

/-- The fields of an AgentTask's `status` dict read by the reconciler. -/
structure TaskStatusData where
  retryCount : Option Nat := none

/-- The fields of an AgentRun's `status` dict read by the reconciler. -/
structure RunStatusData where
  result : Option Json := none
  error : Option String := none

/-- The Agent `spec` fields the reconciler copies. -/
structure AgentSpecData where
  maxSteps : Option Nat := none
  timeout : Option ℚ := none

/-- The status dict returned by `task_created` (kopf stores it under
`status.task_created`; wall-clock `startTime` is a presence marker). -/
structure TaskCreatedStatus where
  phase : String
  currentRun : String
  retryCount : Nat
  startTime : Bool

/-- The status patch applied to the task by `run_phase_changed`. -/
structure TaskPatch where
  phase : String
  currentRun : Option String := none
  retryCount : Option Nat := none
  result : Option Json := none
  error : Option String := none
  completionTime : Bool := false

/-- What the reconciler does in reaction to a run phase change. -/
inductive ReconcileAction where
  | ignore : ReconcileAction
  | patchTask (patch : TaskPatch) : ReconcileAction
  | createRunAndPatch (run : AgentRunBody) (patch : TaskPatch) : ReconcileAction

/-- Python truthiness test `not x` for an optional string (`None` and the
empty string are falsy). -/
def pyFalsyStrOpt : Option String → Bool
  | none => true
  | some s => s == ""

/-- `task_created` (lines 26-116): validate, verify the agent (`none`
models the 404), create `<task>-run-1` with one owner reference
(controller and blockOwnerDeletion both true), return the Running status.
`Except.error` models `kopf.PermanentError`. -/
def task_created (name nspace : String) (uid : Option String) (spec : AgentTaskSpec)
    (agent : Option AgentSpecData) : Except String (AgentRunBody × TaskCreatedStatus) :=
  if pyFalsyStrOpt spec.agentRef then .error "AgentTask must reference an agent"
  else if pyFalsyStrOpt spec.goal then .error "AgentTask must have a goal"
  else
    match agent with
    | none => .error ("Agent '" ++ spec.agentRef.getD "" ++ "' not found")
    | some agent_spec =>
      let agent_ref := spec.agentRef.getD ""
      let run_name := name ++ "-run-1"
      let ref : OwnerReference :=
        { apiVersion := "ai.adk.io/v1"
          kind := "AgentTask"
          name := name
          uid := uid
          controller := true
          blockOwnerDeletion := true }
      let meta : ObjectMeta :=
        { name := run_name
          nspace := nspace
          labels := [("ai.adk.io/agent", some agent_ref), ("ai.adk.io/task", some name)]
          ownerReferences := [ref] }
      let runSpec : AgentRunSpec :=
        { agentRef := some agent_ref
          taskRef := some name
          goal := spec.goal
          context := spec.context.getD (Json.obj .nil)
          maxSteps := some (agent_spec.maxSteps.getD 10)
          timeout := some (agent_spec.timeout.getD 300) }
      let body : AgentRunBody :=
        { apiVersion := "ai.adk.io/v1", kind := "AgentRun", metadata := meta, spec := runSpec }
      let status : TaskCreatedStatus :=
        { phase := "Running", currentRun := run_name, retryCount := 0, startTime := true }
      .ok (body, status)

/-- `run_phase_changed` (lines 119-236): on a terminal child-run phase,
either finalize the task or create the retry run
`<task>-run-<retryCount+2>`.  Note the retry body (lines 180-199) carries
no `ownerReferences`. -/
def run_phase_changed (new : String) (name nspace : String) (runSpec : AgentRunSpec)
    (task : Option (AgentTaskSpec × TaskStatusData)) (runStatus : RunStatusData) :
    ReconcileAction :=
  if new ≠ "Completed" ∧ new ≠ "Failed" then .ignore
  else if pyFalsyStrOpt runSpec.taskRef then .ignore
  else
    match task with
    | none => .ignore
    | some (task_spec, task_status) =>
      let task_ref := runSpec.taskRef.getD ""
      let max_retries := task_spec.maxRetries.getD 3
      let retry_count := task_status.retryCount.getD 0
      if new = "Completed" then
        .patchTask
          { phase := "Completed", result := runStatus.result, completionTime := true }
      else if retry_count < max_retries then
        let new_run_name := task_ref ++ "-run-" ++ toString (retry_count + 2)
        let meta : ObjectMeta :=
          { name := new_run_name
            nspace := nspace
            labels := [("ai.adk.io/agent", runSpec.agentRef), ("ai.adk.io/task", some task_ref)]
            ownerReferences := [] }
        let newSpec : AgentRunSpec :=
          { agentRef := runSpec.agentRef
            taskRef := some task_ref
            goal := task_spec.goal
            context := task_spec.context.getD (Json.obj .nil)
            maxSteps := some (runSpec.maxSteps.getD 10)
            timeout := some (runSpec.timeout.getD 300) }
        let body : AgentRunBody :=
          { apiVersion := "ai.adk.io/v1", kind := "AgentRun", metadata := meta, spec := newSpec }
        .createRunAndPatch body
          { phase := "Running", currentRun := some new_run_name
            retryCount := some (retry_count + 1) }
      else
        .patchTask
          { phase := "Failed", error := some (runStatus.error.getD "Unknown error")
            completionTime := true }

/-! ## Run engine (`controller/handlers/run_handler.py`)

The engine's two external effects — the LLM planner call and the sandbox
call — and the wall clock are supplied by an oracle `RunEnv`: `planner k`
is the outcome of the planner call of iteration `k`, `elapsedAt k` the
elapsed seconds measured at the start of iteration `k` (line 170), and
`toolAt k` the sandbox outcome of iteration `k`.  `err` outcomes model
raised exceptions carrying `str(e)`.  Status patches record the fields the
code writes (wall-clock timestamp strings are presence markers). -/

/-- Outcome of one planner call. -/
inductive PlanOutcome where
  | err (msg : String) : PlanOutcome
  | ok (resp : PlannerResponse) : PlanOutcome

/-- Outcome of one sandbox call. -/
inductive ToolOutcome where
  | err (msg : String) : ToolOutcome
  | ok (res : ExecutionResult) : ToolOutcome

/-- Oracle for a run's external interactions. -/
structure RunEnv where
  planner : Nat → PlanOutcome
  elapsedAt : Nat → ℚ
  toolAt : Nat → ToolOutcome

/-- The `resourcesUsed` counters persisted in status patches
(`wallTimeSeconds` is wall-clock and not modelled). -/
structure ResourcesUsed where
  llmTokens : Nat
  toolExecutions : Nat

/-- The `data` payload of a history entry. -/
inductive HistoryData where
  | plan (action : String) (thought : Json) (tool : Json) (args : Json) : HistoryData
  | toolResult (tool : Json) (success : Bool) (output : Option String)
      (error : Option String) : HistoryData
  | error (error : String) (source : String) : HistoryData

/-- One history entry (`timestamp` is wall-clock and not modelled). -/
structure HistoryEntry where
  step : Nat
  type : String
  data : HistoryData

/-- The `result` dict written on completion (line 218). -/
structure RunOutputResult where
  success : Bool
  output : Json
  steps_taken : Nat

/-- One `update_run_status` patch body: only the fields present in the
patch are `some`/`true`. -/
structure StatusPatch where
  phase : Option String := none
  currentStep : Option Nat := none
  history : Option (List HistoryEntry) := none
  error : Option String := none
  result : Option RunOutputResult := none
  resourcesUsed : Option ResourcesUsed := none
  startTime : Bool := false
  completionTime : Bool := false

/-- Record of one sandbox invocation: the iteration, the tool value and
the timeout argument passed (line 249). -/
structure SandboxCall where
  step : Nat
  tool : Json
  timeoutArg : ℚ

/-- In-flight accumulator of the run loop. -/
structure RunAcc where
  patches : List StatusPatch
  history : List HistoryEntry
  plans : List PlannerResponse
  tokens : Nat
  toolExecs : Nat
  calls : List SandboxCall
  iters : Nat

/-- Final outcome of a run, with everything the engine emitted. -/
structure RunResult where
  phase : String
  error : Option String
  result : Option RunOutputResult
  patches : List StatusPatch
  history : List HistoryEntry
  plans : List PlannerResponse
  tokens : Nat
  toolExecs : Nat
  calls : List SandboxCall
  iters : Nat

/-- `append_history` (lines 49-75): read-modify-write of the full history
array, i.e. one more entry plus a history-only status patch. -/
def appendHist (acc : RunAcc) (e : HistoryEntry) : RunAcc :=
  { acc with
    history := acc.history ++ [e]
    patches := acc.patches ++ [{ history := some (acc.history ++ [e]) }] }

/-- Terminal failure: the `except` patch of lines 301-312 (also used for
step exhaustion, lines 285-296, whose patch has the same shape). -/
def failResult (acc : RunAcc) (msg : String) : RunResult :=
  { phase := "Failed"
    error := some msg
    result := none
    patches := acc.patches ++
      [{ phase := some "Failed", error := some msg, completionTime := true,
         resourcesUsed := some ⟨acc.tokens, acc.toolExecs⟩ }]
    history := acc.history
    plans := acc.plans
    tokens := acc.tokens
    toolExecs := acc.toolExecs
    calls := acc.calls
    iters := acc.iters }

/-- Terminal success: the `finish` patch of lines 216-229. -/
def completeResult (acc : RunAcc) (step : Nat) (answer : Json) : RunResult :=
  { phase := "Completed"
    error := none
    result := some ⟨true, answer, step⟩
    patches := acc.patches ++
      [{ phase := some "Completed", result := some ⟨true, answer, step⟩,
         completionTime := true,
         resourcesUsed := some ⟨acc.tokens, acc.toolExecs⟩ }]
    history := acc.history
    plans := acc.plans
    tokens := acc.tokens
    toolExecs := acc.toolExecs
    calls := acc.calls
    iters := acc.iters }

/-- `result.output[:5000] if result.output else None` (line 258): Python
truthiness makes the empty string `None`; slicing is `take` on code
points. -/
def truncOut : Option String → Option String
  | none => none
  | some s => if s = "" then none else some (String.mk (s.data.take 5000))

/-- The agent loop of `run_created` (lines 158-299).  `fuel` is
`max_steps - current_step`, so the guard `current_step < max_steps` is
`fuel > 0`; `step` is the value of `current_step` before the iteration's
increment. -/
def runLoop (env : RunEnv) (timeout : ℚ) (maxSteps : Nat) :
    Nat → Nat → RunAcc → RunResult
  | 0, _, acc =>
    failResult acc ("Reached maximum steps (" ++ toString maxSteps ++ ") without completing")
  | fuel + 1, step, acc =>
    let s := step + 1
    let acc1 := { acc with patches := acc.patches ++
      [{ phase := some "Planning", currentStep := some s }] }
    let elapsed := env.elapsedAt s
    if timeout < elapsed then
      failResult acc1 ("Run exceeded timeout of " ++ toString timeout ++ "s")
    else
      let acc2 := { acc1 with iters := acc1.iters + 1 }
      match env.planner s with
      | .err e =>
        failResult (appendHist acc2 { step := s, type := "error", data := .error e "planner" }) e
      | .ok r =>
        let acc3 := { acc2 with tokens := acc2.tokens + r.tokens_used }
        let acc4 := appendHist acc3
          { step := s, type := "plan",
            data := .plan r.action r.thought r.tool_name r.tool_args }
        let acc5 := { acc4 with plans := acc4.plans ++ [r] }
        if r.action = "finish" then
          completeResult acc5 s r.final_answer
        else if r.action = "tool_call" then
          let acc6 := { acc5 with
            patches := acc5.patches ++ [({ phase := some "Executing" } : StatusPatch)] }
          let acc7 := { acc6 with toolExecs := acc6.toolExecs + 1 }
          let targ := min 60 (timeout - elapsed)
          let acc8 := { acc7 with calls := acc7.calls ++ [(⟨s, r.tool_name, targ⟩ : SandboxCall)] }
          match env.toolAt s with
          | .ok res =>
            runLoop env timeout maxSteps fuel s (appendHist acc8
              { step := s, type := "tool_result",
                data := .toolResult r.tool_name res.success (truncOut res.output) res.error })
          | .err e =>
            runLoop env timeout maxSteps fuel s (appendHist acc8
              { step := s, type := "error", data := .error e "sandbox" })
        else
          runLoop env timeout maxSteps fuel s acc5

/-- The initial status patch of lines 102-112. -/
def runInitPatch : StatusPatch :=
  { phase := some "Planning", currentStep := some 0, history := some [],
    startTime := true, resourcesUsed := some ⟨0, 0⟩ }

/-- The engine's starting accumulator: the initial status patch has been
issued, all in-memory state of lines 151-156 is zeroed. -/
def runAcc0 : RunAcc :=
  { patches := [runInitPatch], history := [], plans := [], tokens := 0,
    toolExecs := 0, calls := [], iters := 0 }

/-- `run_created` (lines 78-315): initial status patch (lines 102-112),
agent resolution (`agentFound = false` models the 404 of lines 124-131,
whose patch carries only phase and error), then the agent loop.  The
caller resolves `maxSteps`/`timeout` from the spec with defaults 10 and
300 (lines 98-99). -/
def run_created (agentRef : String) (maxSteps : Nat) (timeout : ℚ)
    (agentFound : Bool) (env : RunEnv) : RunResult :=
  let acc0 : RunAcc := runAcc0
  if agentFound then runLoop env timeout maxSteps maxSteps 0 acc0
  else
    { phase := "Failed"
      error := some ("Agent '" ++ agentRef ++ "' not found")
      result := none
      patches := acc0.patches ++
        [{ phase := some "Failed", error := some ("Agent '" ++ agentRef ++ "' not found") }]
      history := []
      plans := []
      tokens := 0
      toolExecs := 0
      calls := []
      iters := 0 }

/-! ### Run-loop invariant vocabulary -/

/-- The `currentStep` values carried by a patch sequence, in order. -/
def patchSteps (l : List StatusPatch) : List Nat := l.filterMap fun p => p.currentStep

/-- The step-exhaustion failure message of line 289. -/
def exhaustMsg (maxSteps : Nat) : String :=
  "Reached maximum steps (" ++ toString maxSteps ++ ") without completing"

/-- The per-call timeout-argument invariant maintained by the loop:
every recorded sandbox call was issued with `min(60, timeout - elapsed)`
where `elapsed` was measured at the start of its iteration, and the
value lies in `[0, 60]`. -/
def CallOk (env : RunEnv) (timeout : ℚ) (c : SandboxCall) : Prop :=
  c.timeoutArg = min 60 (timeout - env.elapsedAt c.step) ∧
    0 ≤ c.timeoutArg ∧ c.timeoutArg ≤ 60

/-! ## Concrete scenario data for the claim witnesses -/

/-- The `ToolInfo` built from a registered tool (lines 317-321). -/
def toolInfoOf (t : ToolDefinition) : ToolInfo := ⟨t.name, t.description, t.parameters⟩

/-- A planner response answering `tool_call`, used by witness scenarios. -/
def tcResp : PlannerResponse :=
  { action := "tool_call"
    thought := .str "t"
    tool_name := .str "x"
    tool_args := .obj .nil }

/-- Environment used to witness C1: the planner always answers
`tool_call`, the clock stands still, the sandbox always fails. -/
def c1Env : RunEnv :=
  { planner := fun _ => .ok tcResp
    elapsedAt := fun _ => 0
    toolAt := fun _ => .ok { success := false, error := some "boom" } }

/-- Environment used to witness C5: one `tool_call` then exhaustion at one
step; the clock reads 3 s at every iteration start. -/
def c5Env : RunEnv :=
  { planner := fun _ => .ok tcResp
    elapsedAt := fun _ => 3
    toolAt := fun _ => .ok { success := true, output := some "ok" } }

/-- Concrete run spec for the C2 retry scenario. -/
def c2RunSpec : AgentRunSpec :=
  { agentRef := some "agent1"
    taskRef := some "task1"
    goal := some "g"
    context := .obj .nil
    maxSteps := some 5
    timeout := some 60 }

/-- Concrete task spec for the C2 retry scenario. -/
def c2TaskSpec : AgentTaskSpec :=
  { agentRef := some "agent1"
    goal := some "g"
    context := some (.obj .nil)
    maxRetries := some 3 }

/-- The retry-run body the reconciler builds in the C2 scenario. -/
def c2RetryBody : AgentRunBody :=
  { apiVersion := "ai.adk.io/v1"
    kind := "AgentRun"
    metadata :=
      { name := "task1-run-2"
        nspace := "default"
        labels := [("ai.adk.io/agent", some "agent1"), ("ai.adk.io/task", some "task1")]
        ownerReferences := [] }
    spec :=
      { agentRef := some "agent1"
        taskRef := some "task1"
        goal := some "g"
        context := .obj .nil
        maxSteps := some 5
        timeout := some 60 } }

/-- The task patch the reconciler issues in the C2 scenario. -/
def c2RetryPatch : TaskPatch :=
  { phase := "Running", currentRun := some "task1-run-2", retryCount := some 1 }

/-- The owner reference `task_created` attaches in the C2 witness
scenario. -/
def c2OwnerRef : OwnerReference :=
  { apiVersion := "ai.adk.io/v1"
    kind := "AgentTask"
    name := "task1"
    uid := some "uid1"
    controller := true
    blockOwnerDeletion := true }

/-- The first-run body `task_created` builds in the C2 witness scenario. -/
def c2Run1Body : AgentRunBody :=
  { apiVersion := "ai.adk.io/v1"
    kind := "AgentRun"
    metadata :=
      { name := "task1-run-1"
        nspace := "default"
        labels := [("ai.adk.io/agent", some "agent1"), ("ai.adk.io/task", some "task1")]
        ownerReferences := [c2OwnerRef] }
    spec :=
      { agentRef := some "agent1"
        taskRef := some "task1"
        goal := some "g"
        context := .obj .nil
        maxSteps := some 10
        timeout := some 300 } }

/-- The status `task_created` returns in the C2 witness scenario. -/
def c2Run1Status : TaskCreatedStatus :=
  { phase := "Running", currentRun := "task1-run-1", retryCount := 0, startTime := true }

/-- Planner answer used by the C6 witness: call the unregistered tool. -/
def c6R1 : PlannerResponse :=
  { action := "tool_call"
    thought := .str "t"
    tool_name := .str "nope"
    tool_args := .obj .nil }

/-- Planner answer used by the C6 witness: finish on the next iteration. -/
def c6R2 : PlannerResponse :=
  { action := "finish"
    thought := .str "t2"
    final_answer := .str "done" }

/-- Environment used to witness C6: first iteration calls the unknown tool
`nope` against an empty registry, second iteration finishes. -/
def c6Env : RunEnv :=
  { planner := fun n => if n = 1 then .ok c6R1 else .ok c6R2
    elapsedAt := fun _ => 2
    toolAt := fun _ =>
      .ok (execute_tool [] "nope" (.obj .nil) 5 (fun _ _ _ => { success := true })) }

/-- Environment whose planner answers are wired to `parse_response "42"`:
the model replied with valid JSON that is not an object. -/
def c3BadEnv : RunEnv :=
  { planner := fun _ =>
      match parse_response "42" 0 with
      | .ok r => .ok r
      | .error e => .err e
    elapsedAt := fun _ => 0
    toolAt := fun _ => .ok { success := true } }

/-- Environment whose planner answers are wired to
`parse_response "hello world"`, the spec's malformed-reply example. -/
def c3Env : RunEnv :=
  { planner := fun _ =>
      match parse_response "hello world" 7 with
      | .ok r => .ok r
      | .error e => .err e
    elapsedAt := fun _ => 0
    toolAt := fun _ => .ok { success := true } }

/-! ## Theorems -/

theorem jsizeV_pos (v : Json) : 1 ≤ jsizeV v := by
  cases v <;> simp [jsizeV]

theorem digitCh_isDigit {k : Nat} (h : k < 10) : (digitCh k).isDigit = true := by
  interval_cases k <;> decide

theorem digitCh_val {k : Nat} (h : k < 10) : (digitCh k).toNat - '0'.toNat = k := by
  interval_cases k <;> decide

theorem digitCh_ne_zero {k : Nat} (h1 : 1 ≤ k) (h : k < 10) : digitCh k ≠ '0' := by
  interval_cases k <;> decide

theorem natToChars_ne_nil (n : Nat) : natToChars n ≠ [] := by
  rw [natToChars]
  split
  · simp
  · simp

theorem natToChars_all_digits (n : Nat) : ∀ c ∈ natToChars n, c.isDigit = true := by
  induction n using Nat.strong_induction_on with
  | _ n ih =>
    rw [natToChars]
    split
    · next h => simpa using digitCh_isDigit h
    · next h =>
      intro c hc
      rcases List.mem_append.1 hc with h1 | h2
      · exact ih (n / 10) (by omega) c h1
      · simp at h2
        subst h2
        exact digitCh_isDigit (Nat.mod_lt _ (by omega))

theorem natToChars_head_ne_zero : ∀ (n : Nat), 1 ≤ n →
    ∀ c l, natToChars n = c :: l → c ≠ '0' := by
  intro n
  induction n using Nat.strong_induction_on with
  | _ n ih =>
    intro hn c l hcl
    rw [natToChars] at hcl
    by_cases h : n < 10
    · rw [dif_pos h] at hcl
      simp at hcl
      rcases hcl with ⟨hc, _⟩
      subst hc
      exact digitCh_ne_zero hn h
    · rw [dif_neg h] at hcl
      obtain ⟨c', l', hc'⟩ : ∃ c' l', natToChars (n / 10) = c' :: l' := by
        rcases hl : natToChars (n / 10) with _ | ⟨c', l'⟩
        · exact absurd hl (natToChars_ne_nil _)
        · exact ⟨c', l', rfl⟩
      rw [hc'] at hcl
      simp at hcl
      rcases hcl with ⟨hc, _⟩
      subst hc
      exact ih (n / 10) (by omega) (by omega) c' l' hc'

theorem hexVal?_hexDigitCh {k : Nat} (h : k < 16) : hexVal? (hexDigitCh k) = some k := by
  interval_cases k <;> decide

theorem hex4?_toHex4 {n : Nat} (h : n < 0x10000) :
    hex4? (hexDigitCh (n / 4096 % 16)) (hexDigitCh (n / 256 % 16))
      (hexDigitCh (n / 16 % 16)) (hexDigitCh (n % 16)) = some n := by
  rw [hex4?, hexVal?_hexDigitCh (Nat.mod_lt _ (by omega)),
    hexVal?_hexDigitCh (Nat.mod_lt _ (by omega)),
    hexVal?_hexDigitCh (Nat.mod_lt _ (by omega)),
    hexVal?_hexDigitCh (Nat.mod_lt _ (by omega))]
  simp only [Option.some_bind, Option.map_some', Option.some.injEq]
  omega

theorem char_facts (c : Char) :
    c.toNat < 0x110000 ∧ (c.toNat < 0xd800 ∨ 0xdfff < c.toNat) := by
  have h : Nat.isValidChar c.toNat := c.valid
  rcases h with h | ⟨h1, h2⟩ <;> exact ⟨by omega, by omega⟩

theorem psb_quote (rest : List Char) : parseStrBody ('"' :: rest) = some ([], rest) := by
  rw [parseStrBody, if_pos rfl]

theorem psb_plain {c : Char} (h1 : c ≠ '"') (h2 : c ≠ '\\') (h3 : ¬ c.toNat < 0x20)
    (rest : List Char) :
    parseStrBody (c :: rest) = (parseStrBody rest).map fun p => (c :: p.1, p.2) := by
  rw [parseStrBody, if_neg h1, if_neg h2, if_neg h3]

theorem psb_simple {e ch : Char} (he : e ≠ 'u') (h : simpleEsc? e = some ch)
    (rest : List Char) :
    parseStrBody ('\\' :: e :: rest) = (parseStrBody rest).map fun p => (ch :: p.1, p.2) := by
  rw [parseStrBody, if_neg (show ('\\' : Char) ≠ '"' by decide), if_pos rfl,
    parseEsc, if_neg he]
  simp only [h]

theorem psb_u {a b c2 d : Char} {n : Nat} (h : hex4? a b c2 d = some n)
    (hn : n < 0xd800 ∨ 0xdfff < n) (rest : List Char) :
    parseStrBody ('\\' :: 'u' :: a :: b :: c2 :: d :: rest) =
      (parseStrBody rest).map fun p => (Char.ofNat n :: p.1, p.2) := by
  rw [parseStrBody, if_neg (show ('\\' : Char) ≠ '"' by decide), if_pos rfl,
    parseEsc, if_pos rfl, parseU]
  simp only [h]
  rw [if_pos hn]

theorem psb_pair {a b c2 d a2 b2 c3 d2 : Char} {n m : Nat}
    (h : hex4? a b c2 d = some n) (hn : 0xd800 ≤ n ∧ n ≤ 0xdbff)
    (h2 : hex4? a2 b2 c3 d2 = some m) (hm : 0xdc00 ≤ m ∧ m ≤ 0xdfff)
    (rest : List Char) :
    parseStrBody
        ('\\' :: 'u' :: a :: b :: c2 :: d :: '\\' :: 'u' :: a2 :: b2 :: c3 :: d2 :: rest) =
      (parseStrBody rest).map fun p =>
        (Char.ofNat (0x10000 + (n - 0xd800) * 0x400 + (m - 0xdc00)) :: p.1, p.2) := by
  rw [parseStrBody, if_neg (show ('\\' : Char) ≠ '"' by decide), if_pos rfl,
    parseEsc, if_pos rfl, parseU]
  simp only [h]
  rw [if_neg (by omega), if_pos (by omega), parseLo, if_pos ⟨rfl, rfl⟩]
  simp only [h2]
  rw [if_pos hm]

theorem parseStrBody_escape : ∀ (cs rest : List Char),
    parseStrBody (escapeChars cs ++ '"' :: rest) = some (cs, rest) := by
  intro cs
  induction cs with
  | nil =>
    intro rest
    rw [escapeChars, List.nil_append, psb_quote]
  | cons c cs ih =>
    intro rest
    rw [escapeChars, List.append_assoc, escapeChar]
    by_cases h1 : c = '"'
    · subst h1
      rw [if_pos rfl]
      rw [show (['\\', '"'] : List Char) ++ (escapeChars cs ++ '"' :: rest) =
        '\\' :: '"' :: (escapeChars cs ++ '"' :: rest) from rfl]
      rw [psb_simple (show ('"' : Char) ≠ 'u' by decide)
        (show simpleEsc? '"' = some '"' by decide), ih]
      rfl
    rw [if_neg h1]
    by_cases h2 : c = '\\'
    · subst h2
      rw [if_pos rfl]
      rw [show (['\\', '\\'] : List Char) ++ (escapeChars cs ++ '"' :: rest) =
        '\\' :: '\\' :: (escapeChars cs ++ '"' :: rest) from rfl]
      rw [psb_simple (show ('\\' : Char) ≠ 'u' by decide)
        (show simpleEsc? '\\' = some '\\' by decide), ih]
      rfl
    rw [if_neg h2]
    by_cases h3 : c = '\x08'
    · subst h3
      rw [if_pos rfl]
      rw [show (['\\', 'b'] : List Char) ++ (escapeChars cs ++ '"' :: rest) =
        '\\' :: 'b' :: (escapeChars cs ++ '"' :: rest) from rfl]
      rw [psb_simple (show ('b' : Char) ≠ 'u' by decide)
        (show simpleEsc? 'b' = some '\x08' by decide), ih]
      rfl
    rw [if_neg h3]
    by_cases h4 : c = '\t'
    · subst h4
      rw [if_pos rfl]
      rw [show (['\\', 't'] : List Char) ++ (escapeChars cs ++ '"' :: rest) =
        '\\' :: 't' :: (escapeChars cs ++ '"' :: rest) from rfl]
      rw [psb_simple (show ('t' : Char) ≠ 'u' by decide)
        (show simpleEsc? 't' = some '\t' by decide), ih]
      rfl
    rw [if_neg h4]
    by_cases h5 : c = '\n'
    · subst h5
      rw [if_pos rfl]
      rw [show (['\\', 'n'] : List Char) ++ (escapeChars cs ++ '"' :: rest) =
        '\\' :: 'n' :: (escapeChars cs ++ '"' :: rest) from rfl]
      rw [psb_simple (show ('n' : Char) ≠ 'u' by decide)
        (show simpleEsc? 'n' = some '\n' by decide), ih]
      rfl
    rw [if_neg h5]
    by_cases h6 : c = '\x0c'
    · subst h6
      rw [if_pos rfl]
      rw [show (['\\', 'f'] : List Char) ++ (escapeChars cs ++ '"' :: rest) =
        '\\' :: 'f' :: (escapeChars cs ++ '"' :: rest) from rfl]
      rw [psb_simple (show ('f' : Char) ≠ 'u' by decide)
        (show simpleEsc? 'f' = some '\x0c' by decide), ih]
      rfl
    rw [if_neg h6]
    by_cases h7 : c = '\x0d'
    · subst h7
      rw [if_pos rfl]
      rw [show (['\\', 'r'] : List Char) ++ (escapeChars cs ++ '"' :: rest) =
        '\\' :: 'r' :: (escapeChars cs ++ '"' :: rest) from rfl]
      rw [psb_simple (show ('r' : Char) ≠ 'u' by decide)
        (show simpleEsc? 'r' = some '\x0d' by decide), ih]
      rfl
    rw [if_neg h7]
    by_cases h8 : 0x20 ≤ c.toNat ∧ c.toNat ≤ 0x7e
    · rw [if_pos h8, List.singleton_append,
        psb_plain h1 h2 (by omega), ih]
      rfl
    rw [if_neg h8]
    by_cases h9 : c.toNat < 0x10000
    · rw [if_pos h9]
      have hsur := (char_facts c).2
      simp only [toHex4, List.cons_append, List.nil_append]
      rw [psb_u (hex4?_toHex4 h9) hsur, ih, Char.ofNat_toNat]
      rfl
    · rw [if_neg h9]
      have hv := (char_facts c).1
      have hq : 0xd800 + (c.toNat - 0x10000) / 0x400 < 0x10000 := by omega
      have hmod : (c.toNat - 0x10000) % 0x400 < 0x400 :=
        Nat.mod_lt _ (by omega)
      have hr : 0xdc00 + (c.toNat - 0x10000) % 0x400 < 0x10000 := by omega
      have hdiv : (c.toNat - 0x10000) / 0x400 < 0x400 := by omega
      simp only [toHex4, List.cons_append, List.nil_append, List.append_assoc]
      rw [psb_pair (hex4?_toHex4 hq) (by omega) (hex4?_toHex4 hr) (by omega), ih]
      have harith : 0x10000 + (0xd800 + (c.toNat - 0x10000) / 0x400 - 0xd800) * 0x400 +
          (0xdc00 + (c.toNat - 0x10000) % 0x400 - 0xdc00) = c.toNat := by
        have := Nat.div_add_mod (c.toNat - 0x10000) 0x400
        omega
      rw [harith, Char.ofNat_toNat]
      rfl

theorem skipWs_cons (c : Char) (l : List Char) :
    skipWs (c :: l) = if isJWs c then skipWs l else c :: l := by
  simp [skipWs, List.dropWhile_cons]

theorem parseV_ws (fuel : Nat) (c : Char) (l : List Char) (h : isJWs c = true) :
    parseV fuel (c :: l) = parseV fuel l := by
  cases fuel with
  | zero => rfl
  | succ fuel => rw [parseV, parseV, skipWs_cons, if_pos h]

theorem digit_not_special {c : Char} (h : c.isDigit = true) :
    isJWs c = false ∧ c ≠ '"' ∧ c ≠ '{' ∧ c ≠ '[' ∧ c ≠ 't' ∧ c ≠ 'f' ∧ c ≠ 'n' ∧
      c ≠ '-' ∧ c ≠ ']' := by
  refine ⟨?_, ?_, ?_, ?_, ?_, ?_, ?_, ?_, ?_⟩
  · simp only [isJWs, Bool.or_eq_false_iff, decide_eq_false_iff_not]
    refine ⟨⟨⟨fun hc => ?_, fun hc => ?_⟩, fun hc => ?_⟩, fun hc => ?_⟩ <;>
      (subst hc; simp at h)
  all_goals intro hc; subst hc; simp at h

theorem digitsVal_foldl : ∀ (n : Nat) (a : Nat),
    (natToChars n).foldl (fun x ch => x * 10 + (ch.toNat - '0'.toNat)) a =
      a * 10 ^ (natToChars n).length + n := by
  intro n
  induction n using Nat.strong_induction_on with
  | _ n ih =>
    intro a
    rw [natToChars]
    by_cases h : n < 10
    · rw [dif_pos h]
      have hv : (digitCh n).toNat - 48 = n := digitCh_val h
      simp [hv]
    · rw [dif_neg h]
      rw [List.foldl_append, ih (n / 10) (by omega)]
      simp only [List.foldl_cons, List.foldl_nil, List.length_append, List.length_cons,
        List.length_nil]
      rw [digitCh_val (Nat.mod_lt _ (by omega))]
      rw [pow_succ]
      have := Nat.div_add_mod n 10
      ring_nf
      omega

theorem natToChars_foldl (n : Nat) :
    (natToChars n).foldl (fun x ch => x * 10 + (ch.toNat - '0'.toNat)) 0 = n := by
  rw [digitsVal_foldl]
  simp

theorem takeWhile_all_append {p : Char → Bool} : ∀ (xs ys : List Char),
    (∀ x ∈ xs, p x = true) →
    List.takeWhile p (xs ++ ys) = xs ++ List.takeWhile p ys ∧
      List.dropWhile p (xs ++ ys) = List.dropWhile p ys := by
  intro xs
  induction xs with
  | nil => intro ys _; simp
  | cons x xs ih =>
    intro ys h
    have hx : p x = true := h x (by simp)
    have hrec := ih ys (fun y hy => h y (by simp [hy]))
    simp only [List.cons_append, List.takeWhile_cons, List.dropWhile_cons, hx, if_pos]
    rw [hrec.1, hrec.2]
    simp

theorem numBoundary_stops {rest : List Char} (hb : numBoundary rest = true) :
    List.takeWhile Char.isDigit rest = [] ∧ List.dropWhile Char.isDigit rest = rest := by
  cases rest with
  | nil => simp
  | cons c r =>
    simp only [numBoundary, Bool.not_eq_true', Bool.or_eq_false_iff,
      decide_eq_false_iff_not] at hb
    simp [List.takeWhile_cons, List.dropWhile_cons, hb.1.1]

theorem parseNatLit_natToChars (n : Nat) (rest : List Char)
    (hb : numBoundary rest = true) :
    parseNatLit (natToChars n ++ rest) = some (n, rest) := by
  by_cases h0 : n = 0
  · subst h0
    rw [show natToChars 0 = ['0'] from by rw [natToChars]; rfl]
    rw [List.cons_append, List.nil_append, parseNatLit, if_pos rfl, if_pos hb]
  · obtain ⟨c, l, hcl⟩ : ∃ c l, natToChars n = c :: l := by
      rcases hl : natToChars n with _ | ⟨c, l⟩
      · exact absurd hl (natToChars_ne_nil _)
      · exact ⟨c, l, rfl⟩
    have hcd : c.isDigit = true := natToChars_all_digits n c (by rw [hcl]; simp)
    have hcz : c ≠ '0' := natToChars_head_ne_zero n (by omega) c l hcl
    rw [hcl, List.cons_append, parseNatLit, if_neg hcz, if_pos hcd]
    have hall : ∀ x ∈ c :: l, x.isDigit = true := by
      intro x hx
      exact natToChars_all_digits n x (by rw [hcl]; exact hx)
    have htw := takeWhile_all_append (c :: l) rest hall
    have hstop := numBoundary_stops hb
    rw [show (c :: (l ++ rest)) = (c :: l) ++ rest from rfl, htw.1, htw.2,
      hstop.1, hstop.2, List.append_nil]
    rw [if_pos hb, ← hcl, natToChars_foldl]

theorem natToChars_length_pos (n : Nat) : 0 < (natToChars n).length := by
  rcases hl : natToChars n with _ | ⟨c, l⟩
  · exact absurd hl (natToChars_ne_nil _)
  · simp

theorem dumps_head (v : Json) :
    ∃ c t, dumpsV v = c :: t ∧ isJWs c = false ∧ c ≠ ']' := by
  cases v with
  | null => exact ⟨'n', _, by rw [dumpsV], by decide, by decide⟩
  | bool b => cases b with
    | true => exact ⟨'t', _, by rw [dumpsV], by decide, by decide⟩
    | false => exact ⟨'f', _, by rw [dumpsV], by decide, by decide⟩
  | num i =>
    rw [dumpsV, intChars]
    by_cases hi : i < 0
    · rw [if_pos hi]
      exact ⟨'-', _, rfl, by decide, by decide⟩
    · rw [if_neg hi]
      obtain ⟨c, l, hcl⟩ : ∃ c l, natToChars i.toNat = c :: l := by
        rcases hl : natToChars i.toNat with _ | ⟨c, l⟩
        · exact absurd hl (natToChars_ne_nil _)
        · exact ⟨c, l, rfl⟩
      have hcd : c.isDigit = true := natToChars_all_digits _ c (by rw [hcl]; simp)
      have hf := digit_not_special hcd
      exact ⟨c, l, hcl, hf.1, hf.2.2.2.2.2.2.2.2⟩
  | str s =>
    refine ⟨'"', escapeChars s.data ++ ['"'], ?_, by decide, by decide⟩
    rw [dumpsV]
    simp only [List.cons_append]
  | arr a => cases a with
    | nil => exact ⟨'[', _, by rw [dumpsV], by decide, by decide⟩
    | cons v tl =>
      refine ⟨'[', dumpsV v ++ joinArr tl ++ [']'], ?_, by decide, by decide⟩
      rw [dumpsV]
      simp only [List.cons_append]
  | obj o => cases o with
    | nil => exact ⟨'{', _, by rw [dumpsV], by decide, by decide⟩
    | cons k v tl =>
      refine ⟨'{', memberChars k v ++ joinObj tl ++ ['}'], ?_, by decide, by decide⟩
      rw [dumpsV]
      simp only [List.cons_append]

mutual

theorem jsizeV_le_len : ∀ v : Json, jsizeV v ≤ (dumpsV v).length
  | .null => by simp [jsizeV, dumpsV]
  | .bool true => by simp [jsizeV, dumpsV]
  | .bool false => by simp [jsizeV, dumpsV]
  | .num i => by
    have := natToChars_length_pos i.toNat
    have := natToChars_length_pos (-i).toNat
    simp only [jsizeV, dumpsV, intChars]
    split <;> simp <;> omega
  | .str s => by simp [jsizeV, dumpsV]
  | .arr .nil => by simp [jsizeV, jsizeA, dumpsV]
  | .arr (.cons v tl) => by
    have h1 := jsizeV_le_len v
    have h2 := jsizeA_le_len tl
    simp only [jsizeV, jsizeA, dumpsV, List.length_append, List.length_cons]
    omega
  | .obj .nil => by simp [jsizeV, jsizeO, dumpsV]
  | .obj (.cons k v tl) => by
    have h1 := jsizeV_le_len v
    have h2 := jsizeO_le_len tl
    simp only [jsizeV, jsizeO, dumpsV, memberChars, List.length_append, List.length_cons]
    omega

theorem jsizeA_le_len : ∀ a : JsonArr, jsizeA a ≤ (joinArr a).length
  | .nil => by simp [jsizeA, joinArr]
  | .cons v tl => by
    have h1 := jsizeV_le_len v
    have h2 := jsizeA_le_len tl
    simp only [jsizeA, joinArr, List.length_append, List.length_cons]
    omega

theorem jsizeO_le_len : ∀ o : JsonObj, jsizeO o ≤ (joinObj o).length
  | .nil => by simp [jsizeO, joinObj]
  | .cons k v tl => by
    have h1 := jsizeV_le_len v
    have h2 := jsizeO_le_len tl
    simp only [jsizeO, joinObj, memberChars, List.length_append, List.length_cons]
    omega

end

theorem string_mk_data (s : String) : String.mk s.data = s := rfl

theorem numBoundary_joinArr (tl : JsonArr) (rest : List Char) :
    numBoundary (joinArr tl ++ ']' :: rest) = true := by
  cases tl with
  | nil => rw [joinArr, List.nil_append]; rfl
  | cons w tw => rw [joinArr, List.cons_append]; rfl

theorem numBoundary_joinObj (o : JsonObj) (rest : List Char) :
    numBoundary (joinObj o ++ '}' :: rest) = true := by
  cases o with
  | nil => rw [joinObj, List.nil_append]; rfl
  | cons k w tw => rw [joinObj, List.cons_append]; rfl

example (rest : List Char) : parseV 1 (dumpsV Json.null ++ rest) = some (Json.null, rest) := by
  rw [dumpsV]
  simp only [List.cons_append, List.nil_append]
  rw [parseV]
  rw [skipWs_cons]
  simp [isJWs, dropLit]

theorem skipWs_not (c : Char) (l : List Char) (h : isJWs c = false) :
    skipWs (c :: l) = c :: l := by
  simp [skipWs, List.dropWhile_cons, h]

theorem parseV_quote (fuel : Nat) (l : List Char) :
    parseV (fuel + 1) ('"' :: l) =
      (parseStrBody l).map fun p => (Json.str (String.mk p.1), p.2) := by
  rw [parseV, skipWs_not '"' l (by decide)]
  simp only [reduceIte]

theorem parseV_objHead (fuel : Nat) (l : List Char) :
    parseV (fuel + 1) ('{' :: l) =
      (match skipWs l with
       | [] => none
       | c2 :: r2 =>
         if c2 = '}' then some (Json.obj .nil, r2)
         else (parseMembers fuel (c2 :: r2)).map fun p => (Json.obj p.1, p.2)) := by
  rw [parseV, skipWs_not '{' l (by decide)]
  simp only [reduceIte]
  rw [if_neg (show ¬(('{' : Char) = '"') by decide)]

theorem parseV_arrHead (fuel : Nat) (l : List Char) :
    parseV (fuel + 1) ('[' :: l) =
      (match skipWs l with
       | [] => none
       | c2 :: r2 =>
         if c2 = ']' then some (Json.arr .nil, r2)
         else (parseItems fuel (c2 :: r2)).map fun p => (Json.arr p.1, p.2)) := by
  rw [parseV, skipWs_not '[' l (by decide)]
  simp only [reduceIte]
  rw [if_neg (show ¬(('[' : Char) = '"') by decide),
    if_neg (show ¬(('[' : Char) = '{') by decide)]

theorem parseV_true (fuel : Nat) (l : List Char) :
    parseV (fuel + 1) ('t' :: l) =
      (dropLit ['r', 'u', 'e'] l).map fun r => (Json.bool true, r) := by
  rw [parseV, skipWs_not 't' l (by decide)]
  simp only [reduceIte]
  rw [if_neg (show ¬(('t' : Char) = '"') by decide),
    if_neg (show ¬(('t' : Char) = '{') by decide),
    if_neg (show ¬(('t' : Char) = '[') by decide)]

theorem parseV_false (fuel : Nat) (l : List Char) :
    parseV (fuel + 1) ('f' :: l) =
      (dropLit ['a', 'l', 's', 'e'] l).map fun r => (Json.bool false, r) := by
  rw [parseV, skipWs_not 'f' l (by decide)]
  simp only [reduceIte]
  rw [if_neg (show ¬(('f' : Char) = '"') by decide),
    if_neg (show ¬(('f' : Char) = '{') by decide),
    if_neg (show ¬(('f' : Char) = '[') by decide),
    if_neg (show ¬(('f' : Char) = 't') by decide)]

theorem parseV_nullLit (fuel : Nat) (l : List Char) :
    parseV (fuel + 1) ('n' :: l) =
      (dropLit ['u', 'l', 'l'] l).map fun r => (Json.null, r) := by
  rw [parseV, skipWs_not 'n' l (by decide)]
  simp only [reduceIte]
  rw [if_neg (show ¬(('n' : Char) = '"') by decide),
    if_neg (show ¬(('n' : Char) = '{') by decide),
    if_neg (show ¬(('n' : Char) = '[') by decide),
    if_neg (show ¬(('n' : Char) = 't') by decide),
    if_neg (show ¬(('n' : Char) = 'f') by decide)]

theorem parseV_negSign (fuel : Nat) (l : List Char) :
    parseV (fuel + 1) ('-' :: l) =
      (parseNatLit l).map fun p => (Json.num (-(p.1 : Int)), p.2) := by
  rw [parseV, skipWs_not '-' l (by decide)]
  simp only [reduceIte]
  rw [if_neg (show ¬(('-' : Char) = '"') by decide),
    if_neg (show ¬(('-' : Char) = '{') by decide),
    if_neg (show ¬(('-' : Char) = '[') by decide),
    if_neg (show ¬(('-' : Char) = 't') by decide),
    if_neg (show ¬(('-' : Char) = 'f') by decide),
    if_neg (show ¬(('-' : Char) = 'n') by decide)]

theorem parseV_digitHead (fuel : Nat) {c : Char} (h : c.isDigit = true) (l : List Char) :
    parseV (fuel + 1) (c :: l) =
      (parseNatLit (c :: l)).map fun p => (Json.num (p.1 : Int), p.2) := by
  have hf := digit_not_special h
  rw [parseV, skipWs_not c l hf.1]
  simp only [hf.2.1, hf.2.2.1, hf.2.2.2.1, hf.2.2.2.2.1, hf.2.2.2.2.2.1,
    hf.2.2.2.2.2.2.1, hf.2.2.2.2.2.2.2.1, h, reduceIte]

theorem parseMembers_ws (fuel : Nat) (l : List Char) :
    parseMembers fuel (' ' :: l) = parseMembers fuel l := by
  cases fuel with
  | zero => rfl
  | succ fuel =>
    rw [parseMembers, parseMembers, skipWs_cons]
    simp only [show isJWs ' ' = true by decide, if_pos]

/-- Reading back `dumps` output: the core round-trip invariant, proved for
all three syntactic classes simultaneously by induction on fuel. -/
theorem parse_dumps (fuel : Nat) :
    (∀ v rest, jsizeV v ≤ fuel → numBoundary rest = true →
      parseV fuel (dumpsV v ++ rest) = some (v, rest)) ∧
    (∀ sp v tl rest, (sp = [] ∨ sp = [' ']) → jsizeA (JsonArr.cons v tl) ≤ fuel →
      parseItems fuel (sp ++ (dumpsV v ++ (joinArr tl ++ ']' :: rest))) =
        some (JsonArr.cons v tl, rest)) ∧
    (∀ sp k v o rest, (sp = [] ∨ sp = [' ']) → jsizeO (JsonObj.cons k v o) ≤ fuel →
      parseMembers fuel (sp ++ (memberChars k v ++ (joinObj o ++ '}' :: rest))) =
        some (JsonObj.cons k v o, rest)) := by
  induction fuel with
  | zero =>
    refine ⟨fun v rest hsz _ => absurd hsz (by have := jsizeV_pos v; omega),
      fun sp v tl rest _ hsz => absurd hsz (by simp [jsizeA]),
      fun sp k v o rest _ hsz => absurd hsz (by simp [jsizeO])⟩
  | succ fuel ih =>
    obtain ⟨ihV, ihA, ihO⟩ := ih
    refine ⟨?_, ?_, ?_⟩
    · -- parseV on a dumped value
      intro v rest hsz hb
      cases v with
      | null =>
        rw [dumpsV]
        simp only [List.cons_append, List.nil_append]
        rw [parseV_nullLit]
        simp [dropLit]
      | bool b =>
        cases b with
        | true =>
          rw [dumpsV]
          simp only [List.cons_append, List.nil_append]
          rw [parseV_true]
          simp [dropLit]
        | false =>
          rw [dumpsV]
          simp only [List.cons_append, List.nil_append]
          rw [parseV_false]
          simp [dropLit]
      | num i =>
        rw [dumpsV, intChars]
        by_cases hi : i < 0
        · rw [if_pos hi]
          simp only [List.cons_append]
          rw [parseV_negSign, parseNatLit_natToChars _ _ hb]
          have hco : -(((-i).toNat : Int)) = i := by omega
          simp only [Option.map_some', hco]
        · rw [if_neg hi]
          obtain ⟨c, l, hcl⟩ : ∃ c l, natToChars i.toNat = c :: l := by
            rcases hl : natToChars i.toNat with _ | ⟨c, l⟩
            · exact absurd hl (natToChars_ne_nil _)
            · exact ⟨c, l, rfl⟩
          have hcd : c.isDigit = true := natToChars_all_digits _ c (by rw [hcl]; simp)
          rw [hcl, List.cons_append, parseV_digitHead fuel hcd,
            show c :: (l ++ rest) = (c :: l) ++ rest from rfl, ← hcl,
            parseNatLit_natToChars _ _ hb]
          have hco : ((i.toNat : Int)) = i := by omega
          simp only [Option.map_some', hco]
      | str s =>
        rw [dumpsV]
        simp only [List.cons_append, List.nil_append, List.append_assoc,
          List.singleton_append]
        rw [parseV_quote, parseStrBody_escape]
        simp [string_mk_data]
      | arr a =>
        cases a with
        | nil =>
          rw [dumpsV]
          simp only [List.cons_append, List.nil_append]
          rw [parseV_arrHead, skipWs_not ']' rest (by decide)]
          simp only [reduceIte]
        | cons v tl =>
          rw [dumpsV]
          simp only [List.cons_append, List.nil_append, List.append_assoc,
            List.singleton_append]
          rw [parseV_arrHead]
          obtain ⟨c, t, hct, hws, hnb⟩ := dumps_head v
          rw [hct, List.cons_append, skipWs_not c _ hws]
          simp only [reduceIte, hnb, if_false]
          rw [show c :: (t ++ (joinArr tl ++ ']' :: rest)) =
            (c :: t) ++ (joinArr tl ++ ']' :: rest) from rfl, ← hct]
          have hsz' : jsizeA (JsonArr.cons v tl) ≤ fuel := by
            simp only [jsizeV, jsizeA] at hsz ⊢
            omega
          have hres := ihA [] v tl rest (Or.inl rfl) hsz'
          rw [List.nil_append] at hres
          rw [hres]
          simp only [Option.map_some']
      | obj o =>
        cases o with
        | nil =>
          rw [dumpsV]
          simp only [List.cons_append, List.nil_append]
          rw [parseV_objHead, skipWs_not '}' rest (by decide)]
          simp only [reduceIte]
        | cons k v tl =>
          rw [dumpsV]
          simp only [List.cons_append, List.nil_append, List.append_assoc,
            List.singleton_append]
          rw [parseV_objHead]
          have hshape : memberChars k v ++ (joinObj tl ++ '}' :: rest) =
              '"' :: (escapeChars k.data ++ '"' :: ':' :: ' ' ::
                (dumpsV v ++ (joinObj tl ++ '}' :: rest))) := by
            rw [memberChars]
            simp only [List.cons_append, List.nil_append, List.append_assoc]
          rw [hshape, skipWs_not '"' _ (by decide)]
          simp only [reduceIte]
          have hsz' : jsizeO (JsonObj.cons k v tl) ≤ fuel := by
            simp only [jsizeV, jsizeO] at hsz ⊢
            omega
          have hres := ihO [] k v tl rest (Or.inl rfl) hsz'
          rw [List.nil_append, hshape] at hres
          rw [hres]
          simp only [Option.map_some']
          rw [if_neg (show ¬(('"' : Char) = '}') by decide)]
    · -- parseItems on dumped elements
      intro sp v tl rest hsp hsz
      rw [parseItems]
      have hszv : jsizeV v ≤ fuel := by
        simp only [jsizeA] at hsz
        omega
      have hv : parseV fuel (sp ++ (dumpsV v ++ (joinArr tl ++ ']' :: rest))) =
          some (v, joinArr tl ++ ']' :: rest) := by
        rcases hsp with rfl | rfl
        · rw [List.nil_append]
          exact ihV v _ hszv (numBoundary_joinArr tl rest)
        · rw [List.singleton_append, parseV_ws fuel ' ' _ (by decide)]
          exact ihV v _ hszv (numBoundary_joinArr tl rest)
      rw [hv]
      simp only []
      cases tl with
      | nil =>
        rw [joinArr, List.nil_append, skipWs_not ']' rest (by decide)]
        simp only [reduceIte]
        rw [if_neg (show ¬((']' : Char) = ',') by decide)]
      | cons w tw =>
        rw [joinArr]
        simp only [List.cons_append, List.nil_append, List.append_assoc]
        rw [skipWs_not ',' _ (by decide)]
        simp only [reduceIte]
        have hsz' : jsizeA (JsonArr.cons w tw) ≤ fuel := by
          have := jsizeV_pos v
          simp only [jsizeA] at hsz ⊢
          omega
        have hres := ihA [' '] w tw rest (Or.inr rfl) hsz'
        rw [List.singleton_append] at hres
        rw [hres]
        simp only [Option.map_some']
    · -- parseMembers on dumped members
      intro sp k v o rest hsp hsz
      have hstep : parseMembers (fuel + 1)
            (sp ++ (memberChars k v ++ (joinObj o ++ '}' :: rest))) =
          parseMembers (fuel + 1) (memberChars k v ++ (joinObj o ++ '}' :: rest)) := by
        rcases hsp with rfl | rfl
        · rw [List.nil_append]
        · rw [List.singleton_append, parseMembers_ws]
      rw [hstep]
      have hshape : memberChars k v ++ (joinObj o ++ '}' :: rest) =
          '"' :: (escapeChars k.data ++ '"' :: ':' :: ' ' ::
            (dumpsV v ++ (joinObj o ++ '}' :: rest))) := by
        rw [memberChars]
        simp only [List.cons_append, List.nil_append, List.append_assoc]
      rw [hshape]
      rw [parseMembers, skipWs_not '"' _ (by decide)]
      simp only [reduceIte]
      rw [parseStrBody_escape]
      simp only []
      rw [skipWs_not ':' _ (by decide)]
      simp only [reduceIte]
      rw [parseV_ws fuel ' ' _ (by decide)]
      have hszv : jsizeV v ≤ fuel := by
        simp only [jsizeO] at hsz
        omega
      rw [ihV v _ hszv (numBoundary_joinObj o rest)]
      simp only []
      cases o with
      | nil =>
        rw [joinObj, List.nil_append, skipWs_not '}' rest (by decide)]
        simp only [reduceIte]
        rw [if_neg (show ¬(('}' : Char) = ',') by decide)]
      | cons k2 v2 o2 =>
        rw [joinObj]
        simp only [List.cons_append, List.nil_append, List.append_assoc]
        rw [skipWs_not ',' _ (by decide)]
        simp only [reduceIte]
        have hsz' : jsizeO (JsonObj.cons k2 v2 o2) ≤ fuel := by
          have := jsizeV_pos v
          simp only [jsizeO] at hsz ⊢
          omega
        have hres := ihO [' '] k2 v2 o2 rest (Or.inr rfl) hsz'
        rw [List.singleton_append] at hres
        rw [hres]
        simp only [Option.map_some', string_mk_data]

/-- `json.loads(json.dumps(v)) == v` for every modelled JSON value. -/
theorem loads_dumps (v : Json) : loads (dumpsV v) = some v := by
  rw [loads]
  have hfuel : jsizeV v ≤ (dumpsV v).length + 1 :=
    le_trans (jsizeV_le_len v) (by omega)
  have hmain := (parse_dumps ((dumpsV v).length + 1)).1 v [] hfuel rfl
  rw [List.append_nil] at hmain
  rw [hmain]
  simp [skipWs]

theorem pyStrip_sandwich (c d : Char) (l : List Char)
    (hc : pyIsSpace c = false) (hd : pyIsSpace d = false) :
    pyStrip (c :: (l ++ [d])) = c :: (l ++ [d]) := by
  rw [pyStrip, List.dropWhile_cons]
  simp only [hc, Bool.false_eq_true, if_false]
  rw [show (c :: (l ++ [d])).reverse = d :: (l.reverse ++ [c]) from by simp]
  rw [List.dropWhile_cons]
  simp only [hd, Bool.false_eq_true, if_false]
  simp

theorem stripFence_brace (l : List Char) : stripFence ('{' :: l) = '{' :: l := by
  rw [stripFence, if_neg]
  rw [pyStartsWith, fence]
  simp only [List.isPrefixOf, Bool.and_eq_true]
  intro h
  rcases h with ⟨h1, _⟩
  have : (backquote == '{') = false := by decide
  simp [this] at h1

theorem processContent_dumps_obj (o : JsonObj) :
    processContent (String.mk (dumpsV (Json.obj o))) = dumpsV (Json.obj o) := by
  rw [processContent]
  cases o with
  | nil =>
    rw [show dumpsV (Json.obj .nil) = '{' :: ([] ++ ['}']) from by rw [dumpsV]; rfl]
    rw [show (String.mk ('{' :: ([] ++ ['}']))).data = '{' :: ([] ++ ['}']) from rfl]
    rw [pyStrip_sandwich '{' '}' [] (by decide) (by decide)]
    exact stripFence_brace _
  | cons k v tl =>
    rw [show dumpsV (Json.obj (.cons k v tl)) =
      '{' :: ((memberChars k v ++ joinObj tl) ++ ['}']) from by
        rw [dumpsV]
        simp [List.append_assoc]]
    rw [show (String.mk ('{' :: ((memberChars k v ++ joinObj tl) ++ ['}']))).data =
      '{' :: ((memberChars k v ++ joinObj tl) ++ ['}']) from rfl]
    rw [pyStrip_sandwich '{' '}' _ (by decide) (by decide)]
    exact stripFence_brace _

theorem runLoop_all_tool_call (env : RunEnv) (timeout : ℚ) (maxSteps : Nat)
    (htc : ∀ k, ∃ r, env.planner k = .ok r ∧ r.action = "tool_call")
    (hto : ∀ k, env.elapsedAt k ≤ timeout) :
    ∀ fuel step acc,
      (runLoop env timeout maxSteps fuel step acc).iters = acc.iters + fuel ∧
      (runLoop env timeout maxSteps fuel step acc).phase = "Failed" ∧
      (runLoop env timeout maxSteps fuel step acc).error = some (exhaustMsg maxSteps) ∧
      patchSteps (runLoop env timeout maxSteps fuel step acc).patches =
        patchSteps acc.patches ++ List.range' (step + 1) fuel := by
  intro fuel
  induction fuel with
  | zero =>
    intro step acc
    rw [runLoop]
    refine ⟨rfl, rfl, rfl, ?_⟩
    simp [failResult, patchSteps, List.filterMap_append, exhaustMsg]
  | succ fuel ih =>
    intro step acc
    obtain ⟨r, hr, hrtc⟩ := htc (step + 1)
    have hguard : ¬ (timeout < env.elapsedAt (step + 1)) := not_lt.mpr (hto (step + 1))
    rw [runLoop]
    simp only [hr, hguard, if_false, hrtc]
    rw [if_neg (show ¬(("tool_call" : String) = "finish") by decide)]
    simp only [if_true]
    rcases htool : env.toolAt (step + 1) with e | res
    all_goals {
      simp only [htool]
      refine ⟨?_, ?_, ?_, ?_⟩
      · rw [(ih (step + 1) _).1]
        simp [appendHist]
        omega
      · exact (ih (step + 1) _).2.1
      · exact (ih (step + 1) _).2.2.1
      · rw [(ih (step + 1) _).2.2.2]
        rw [List.range'_succ]
        simp [appendHist, patchSteps, List.filterMap_append]
    }

theorem runLoop_calls_ok (env : RunEnv) (timeout : ℚ) (maxSteps : Nat) :
    ∀ fuel step acc, (∀ c ∈ acc.calls, CallOk env timeout c) →
      ∀ c ∈ (runLoop env timeout maxSteps fuel step acc).calls, CallOk env timeout c := by
  intro fuel
  induction fuel with
  | zero =>
    intro step acc hacc
    rw [runLoop]
    simpa [failResult] using hacc
  | succ fuel ih =>
    intro step acc hacc
    rw [runLoop]
    by_cases hguard : timeout < env.elapsedAt (step + 1)
    · simp only [hguard, if_true]
      simpa [failResult] using hacc
    · simp only [hguard, if_false]
      rcases hplan : env.planner (step + 1) with e | r
      · simpa [failResult, appendHist] using hacc
      · simp only []
        by_cases hfin : r.action = "finish"
        · simp only [hfin, if_true, reduceIte]
          simpa [completeResult, appendHist] using hacc
        · simp only [hfin, if_false]
          by_cases htc : r.action = "tool_call"
          · simp only [htc, if_true, reduceIte]
            have hnew : CallOk env timeout
                ⟨step + 1, r.tool_name, min 60 (timeout - env.elapsedAt (step + 1))⟩ := by
              refine ⟨rfl, ?_, min_le_left _ _⟩
              have h1 : (0 : ℚ) ≤ timeout - env.elapsedAt (step + 1) :=
                sub_nonneg.mpr (not_lt.1 hguard)
              exact le_min (by norm_num) h1
            rcases htool : env.toolAt (step + 1) with e | res
            all_goals {
              simp only []
              refine ih (step + 1) _ ?_
              intro c hc
              simp only [appendHist, List.mem_append, List.mem_singleton] at hc
              rcases hc with hc | hc
              · exact hacc c hc
              · subst hc
                exact hnew
            }
          · simp only [htc, if_false]
            refine ih (step + 1) _ ?_
            simpa [appendHist] using hacc

theorem runLoop_toolExecs (env : RunEnv) (timeout : ℚ) (maxSteps : Nat) :
    ∀ fuel step acc,
      ∃ l, (runLoop env timeout maxSteps fuel step acc).plans = acc.plans ++ l ∧
        (runLoop env timeout maxSteps fuel step acc).toolExecs =
          acc.toolExecs + (l.filter fun r => r.action == "tool_call").length := by
  intro fuel
  induction fuel with
  | zero =>
    intro step acc
    rw [runLoop]
    exact ⟨[], by simp [failResult]⟩
  | succ fuel ih =>
    intro step acc
    rw [runLoop]
    by_cases hguard : timeout < env.elapsedAt (step + 1)
    · simp only [hguard, if_true]
      exact ⟨[], by simp [failResult]⟩
    · simp only [hguard, if_false]
      rcases hplan : env.planner (step + 1) with e | r
      · exact ⟨[], by simp [failResult, appendHist]⟩
      · simp only []
        by_cases hfin : r.action = "finish"
        · simp only [hfin, if_true, reduceIte]
          refine ⟨[r], ?_, ?_⟩
          · simp [completeResult, appendHist]
          · simp [completeResult, appendHist, List.filter_cons, hfin]
        · simp only [hfin, if_false]
          by_cases htc : r.action = "tool_call"
          · simp only [htc, if_true, reduceIte]
            rcases htool : env.toolAt (step + 1) with e | res
            all_goals {
              simp only []
              obtain ⟨l', hp, ht⟩ := ih (step + 1) _
              refine ⟨r :: l', ?_, ?_⟩
              · rw [hp]
                simp [appendHist]
              · rw [ht]
                simp [appendHist, List.filter_cons, htc]
                omega
            }
          · simp only [htc, if_false]
            obtain ⟨l', hp, ht⟩ := ih (step + 1) _
            refine ⟨r :: l', ?_, ?_⟩
            · rw [hp]
              simp [appendHist]
            · rw [ht]
              have : (r.action == "tool_call") = false := by
                simp [htc]
              simp [appendHist, List.filter_cons, this]

theorem failResult_lastPatch (acc : RunAcc) (msg : String) :
    ∃ p, (failResult acc msg).patches.getLast? = some p ∧
      p.resourcesUsed = some ⟨(failResult acc msg).tokens, (failResult acc msg).toolExecs⟩ :=
  ⟨_, List.getLast?_concat _, rfl⟩

theorem completeResult_lastPatch (acc : RunAcc) (step : Nat) (answer : Json) :
    ∃ p, (completeResult acc step answer).patches.getLast? = some p ∧
      p.resourcesUsed = some ⟨(completeResult acc step answer).tokens,
        (completeResult acc step answer).toolExecs⟩ :=
  ⟨_, List.getLast?_concat _, rfl⟩

theorem runLoop_lastPatch (env : RunEnv) (timeout : ℚ) (maxSteps : Nat) :
    ∀ fuel step acc,
      ∃ p, (runLoop env timeout maxSteps fuel step acc).patches.getLast? = some p ∧
        p.resourcesUsed = some ⟨(runLoop env timeout maxSteps fuel step acc).tokens,
          (runLoop env timeout maxSteps fuel step acc).toolExecs⟩ := by
  intro fuel
  induction fuel with
  | zero =>
    intro step acc
    rw [runLoop]
    exact failResult_lastPatch _ _
  | succ fuel ih =>
    intro step acc
    rw [runLoop]
    by_cases hguard : timeout < env.elapsedAt (step + 1)
    · simp only [hguard, if_true]
      exact failResult_lastPatch _ _
    · simp only [hguard, if_false]
      rcases hplan : env.planner (step + 1) with e | r
      · simp only []
        exact failResult_lastPatch _ _
      · simp only []
        by_cases hfin : r.action = "finish"
        · simp only [hfin, if_true, reduceIte]
          exact completeResult_lastPatch _ _ _
        · simp only [hfin, if_false]
          by_cases htc : r.action = "tool_call"
          · simp only [htc, if_true, reduceIte]
            rcases htool : env.toolAt (step + 1) with e | res
            all_goals {
              simp only []
              exact ih (step + 1) _
            }
          · simp only [htc, if_false]
            exact ih (step + 1) _

/-- C8: the per-agent tool view returns an entry for every registered tool
when the allowed list is empty, and otherwise exactly the entries of
registered tools whose names lie in the allowed list (unregistered allowed
names contribute nothing, and no error arises). -/
theorem C8_view_for_agent (tools : List ToolDefinition) (allowed : List String) :
    get_tools_for_agent tools allowed =
      if allowed = [] then tools.map toolInfoOf
      else (tools.filter fun t => t.name ∈ allowed).map toolInfoOf := by
  by_cases hal : allowed = []
  · subst hal
    rw [if_pos rfl]
    induction tools with
    | nil => rfl
    | cons t ts ih =>
      simp only [get_tools_for_agent, List.filterMap_cons, ne_eq, not_true_eq_false,
        false_and, if_false, List.map_cons] at ih ⊢
      rw [ih]
      rfl
  · rw [if_neg hal]
    induction tools with
    | nil => rfl
    | cons t ts ih =>
      simp only [get_tools_for_agent, List.filterMap_cons] at ih ⊢
      by_cases hmem : t.name ∈ allowed
      · rw [if_neg (fun h => h.2 hmem), List.filter_cons,
          if_pos (by simpa using hmem), List.map_cons, ih]
        rfl
      · rw [if_pos ⟨hal, hmem⟩, List.filter_cons,
          if_neg (by simpa using hmem), ih]

/-- C9: `is_authorized` authorizes everything on an empty allow-list; a
single entry ending in `/*` authorizes exactly the IDs starting with the
entry minus its final `*` (the prefix up to and including the final slash,
as the fourth conjunct makes explicit); a non-wildcard entry authorizes
only the exactly equal ID; a general allow-list authorizes iff it is empty
or some entry matches by those per-entry rules. -/
theorem C9_spiffe_authorization (id e : String) (p : List Char) (l : List String) :
    (is_authorized id [] = true) ∧
    (pyEndsWith e.data ['/', '*'] = true →
      (is_authorized id [e] = true ↔ pyStartsWith id.data e.data.dropLast = true)) ∧
    (pyEndsWith e.data ['/', '*'] = false →
      (is_authorized id [e] = true ↔ id = e)) ∧
    ((String.mk (p ++ ['/', '*'])).data.dropLast = p ++ ['/']) ∧
    (is_authorized id l = true ↔ l = [] ∨ ∃ a ∈ l,
      if pyEndsWith a.data ['/', '*'] = true then pyStartsWith id.data a.data.dropLast = true
      else id = a) := by
  refine ⟨rfl, ?_, ?_, ?_, ?_⟩
  · intro hw
    simp [is_authorized, hw]
  · intro hw
    simp [is_authorized, hw]
  · rw [show (String.mk (p ++ ['/', '*'])).data = p ++ ['/', '*'] from rfl]
    rw [show p ++ ['/', '*'] = (p ++ ['/']) ++ ['*'] from by simp]
    exact List.dropLast_concat
  · by_cases hl : l = []
    · subst hl
      simp [is_authorized]
    · rw [is_authorized, if_neg (by simpa using hl)]
      simp only [hl, false_or, List.any_eq_true]
      constructor
      · rintro ⟨a, ha, hm⟩
        refine ⟨a, ha, ?_⟩
        by_cases hw : pyEndsWith a.data ['/', '*'] = true
        · rw [if_pos hw]
          rw [if_pos hw] at hm
          exact hm
        · rw [if_neg hw]
          rw [if_neg hw] at hm
          exact beq_iff_eq.mp hm
      · rintro ⟨a, ha, hm⟩
        refine ⟨a, ha, ?_⟩
        by_cases hw : pyEndsWith a.data ['/', '*'] = true
        · rw [if_pos hw]
          rw [if_pos hw] at hm
          exact hm
        · rw [if_neg hw]
          rw [if_neg hw] at hm
          exact beq_iff_eq.mpr hm

/-- C9 witness: the spec's concrete examples, obtained from
`C9_spiffe_authorization` with its hypotheses discharged by computation:
the wildcard entry admits the in-subtree ID, and by evaluation it rejects
the out-of-subtree ID; the empty list admits everything. -/
theorem C9_spiffe_authorization_witness :
    (is_authorized "spiffe://t/ns/other/agent/x" [] = true) ∧
    (is_authorized "spiffe://t/ns/default/agent/x" ["spiffe://t/ns/default/*"] = true ↔
      pyStartsWith ("spiffe://t/ns/default/agent/x").data
        ("spiffe://t/ns/default/*").data.dropLast = true) ∧
    (pyStartsWith ("spiffe://t/ns/default/agent/x").data
        ("spiffe://t/ns/default/*").data.dropLast = true) ∧
    (pyStartsWith ("spiffe://t/ns/other/agent/x").data
        ("spiffe://t/ns/default/*").data.dropLast = false) ∧
    (is_authorized "spiffe://t/ns/default/agent/x" ["spiffe://t/ns/default"] = true ↔
      "spiffe://t/ns/default/agent/x" = "spiffe://t/ns/default") :=
  ⟨(C9_spiffe_authorization "spiffe://t/ns/other/agent/x" "e" [] []).1,
   (C9_spiffe_authorization "spiffe://t/ns/default/agent/x" "spiffe://t/ns/default/*"
      [] []).2.1 (by decide),
   by decide,
   by decide,
   (C9_spiffe_authorization "spiffe://t/ns/default/agent/x" "spiffe://t/ns/default"
      [] []).2.2.1 (by decide)⟩

/-- C1: with a planner that answers `tool_call` at every step and a wall
clock that stays within the time budget, a run with step budget
`maxSteps = N` performs exactly `N` planning iterations and terminates
`Failed` with `"Reached maximum steps (N) without completing"`; and the
`currentStep` values across all issued status patches are non-decreasing
and never exceed `maxSteps`. -/
theorem C1_step_exhaustion (agentRef : String) (maxSteps : Nat) (timeout : ℚ)
    (env : RunEnv)
    (htc : ∀ k, ∃ r, env.planner k = .ok r ∧ r.action = "tool_call")
    (hto : ∀ k, env.elapsedAt k ≤ timeout) :
    (run_created agentRef maxSteps timeout true env).iters = maxSteps ∧
    (run_created agentRef maxSteps timeout true env).phase = "Failed" ∧
    (run_created agentRef maxSteps timeout true env).error = some (exhaustMsg maxSteps) ∧
    List.Chain' (· ≤ ·)
      (patchSteps (run_created agentRef maxSteps timeout true env).patches) ∧
    ∀ s ∈ patchSteps (run_created agentRef maxSteps timeout true env).patches,
      s ≤ maxSteps := by
  have h := runLoop_all_tool_call env timeout maxSteps htc hto maxSteps 0 runAcc0
  have hrc : run_created agentRef maxSteps timeout true env =
      runLoop env timeout maxSteps maxSteps 0 runAcc0 := by
    rw [run_created]
    exact if_pos rfl
  rw [hrc]
  have hsteps : patchSteps (runLoop env timeout maxSteps maxSteps 0 runAcc0).patches =
      List.range' 0 (maxSteps + 1) := by
    rw [h.2.2.2]
    rw [show patchSteps runAcc0.patches = [0] from rfl]
    rw [List.range'_succ]
    rfl
  refine ⟨by simpa [runAcc0] using h.1, h.2.1, h.2.2.1, ?_, ?_⟩
  · rw [hsteps]
    exact ((List.pairwise_lt_range' 0 (maxSteps + 1)).imp le_of_lt).chain'
  · intro s hs
    rw [hsteps] at hs
    have := List.mem_range'_1.mp hs
    omega

/-- C1 witness: the exhaustion scenario at `maxSteps = 2`, `timeout = 5`. -/
theorem C1_step_exhaustion_witness :
    (∀ k, ∃ r, c1Env.planner k = .ok r ∧ r.action = "tool_call") ∧
    (∀ k, c1Env.elapsedAt k ≤ (5 : ℚ)) ∧
    ((run_created "demo" 2 5 true c1Env).iters = 2 ∧
     (run_created "demo" 2 5 true c1Env).phase = "Failed" ∧
     (run_created "demo" 2 5 true c1Env).error = some (exhaustMsg 2) ∧
     List.Chain' (· ≤ ·) (patchSteps (run_created "demo" 2 5 true c1Env).patches) ∧
     ∀ s ∈ patchSteps (run_created "demo" 2 5 true c1Env).patches, s ≤ 2) :=
  ⟨fun _ => ⟨tcResp, rfl, rfl⟩, fun _ => show (0 : ℚ) ≤ 5 by decide,
   C1_step_exhaustion "demo" 2 5 c1Env (fun _ => ⟨tcResp, rfl, rfl⟩)
     (fun _ => show (0 : ℚ) ≤ 5 by decide)⟩

/-- C5: every sandbox invocation the engine issues carries the timeout
argument `min 60 (timeout - elapsed)` where `elapsed` was measured at the
start of that iteration (line 170), and — because the iteration's timeout
guard has passed — that value is never negative and never above 60. -/
theorem C5_sandbox_timeout_argument (agentRef : String) (maxSteps : Nat) (timeout : ℚ)
    (agentFound : Bool) (env : RunEnv) :
    ∀ c ∈ (run_created agentRef maxSteps timeout agentFound env).calls,
      c.timeoutArg = min 60 (timeout - env.elapsedAt c.step) ∧
      0 ≤ c.timeoutArg ∧ c.timeoutArg ≤ 60 := by
  cases agentFound with
  | false =>
    intro c hc
    simp [run_created] at hc
  | true =>
    have hrc : run_created agentRef maxSteps timeout true env =
        runLoop env timeout maxSteps maxSteps 0 runAcc0 := by
      rw [run_created]
      exact if_pos rfl
    rw [hrc]
    exact runLoop_calls_ok env timeout maxSteps maxSteps 0 runAcc0 (by simp [runAcc0])

/-- C5 witness: with `timeout = 10` and a clock reading 3 s, the sole
sandbox call of the run carries `min 60 (10 - 3)`, which is non-negative
and at most 60. -/
theorem C5_sandbox_timeout_argument_witness :
    (⟨1, Json.str "x", min 60 (10 - c5Env.elapsedAt 1)⟩ : SandboxCall) ∈
      (run_created "demo" 1 10 true c5Env).calls ∧
    ((⟨1, Json.str "x", min 60 (10 - c5Env.elapsedAt 1)⟩ : SandboxCall).timeoutArg =
        min 60 (10 - c5Env.elapsedAt 1) ∧
      0 ≤ (⟨1, Json.str "x", min 60 (10 - c5Env.elapsedAt 1)⟩ : SandboxCall).timeoutArg ∧
      (⟨1, Json.str "x", min 60 (10 - c5Env.elapsedAt 1)⟩ : SandboxCall).timeoutArg ≤ 60) := by
  have hm : (⟨1, Json.str "x", min 60 (10 - c5Env.elapsedAt 1)⟩ : SandboxCall) ∈
      (run_created "demo" 1 10 true c5Env).calls := by
    rw [show (run_created "demo" 1 10 true c5Env).calls =
      [(⟨1, Json.str "x", min 60 (10 - c5Env.elapsedAt 1)⟩ : SandboxCall)] from rfl]
    exact List.mem_singleton.mpr rfl
  exact ⟨hm, C5_sandbox_timeout_argument "demo" 1 10 true c5Env _ hm⟩

/-- C10: the engine's `tool_executions` counter is bumped exactly once per
iteration whose planner decision is `tool_call` (the increment at line 245
precedes the sandbox await, so exception iterations count too): the final
counter equals the number of `tool_call` decisions among the planner's
answers — not the number of `tool_result` history entries — and that
counter is what the terminal status patch persists in
`resourcesUsed.toolExecutions`. -/
theorem C10_tool_executions_counter (agentRef : String) (maxSteps : Nat) (timeout : ℚ)
    (env : RunEnv) :
    (run_created agentRef maxSteps timeout true env).toolExecs =
      ((run_created agentRef maxSteps timeout true env).plans.filter
        fun r => r.action == "tool_call").length ∧
    ∃ p, (run_created agentRef maxSteps timeout true env).patches.getLast? = some p ∧
      p.resourcesUsed = some ⟨(run_created agentRef maxSteps timeout true env).tokens,
        (run_created agentRef maxSteps timeout true env).toolExecs⟩ := by
  have hrc : run_created agentRef maxSteps timeout true env =
      runLoop env timeout maxSteps maxSteps 0 runAcc0 := by
    rw [run_created]
    exact if_pos rfl
  rw [hrc]
  obtain ⟨l, hp, ht⟩ := runLoop_toolExecs env timeout maxSteps maxSteps 0 runAcc0
  refine ⟨?_, runLoop_lastPatch env timeout maxSteps maxSteps 0 runAcc0⟩
  rw [hp, ht]
  simp [runAcc0]

/-- C2 counterexample: a retry run created by `run_phase_changed` carries
no owner references at all (the body of lines 180-199 has no
`ownerReferences` key), so it does not carry exactly one
controller/blockOwnerDeletion reference to its parent task. -/
theorem C2_counterexample :
    run_phase_changed "Failed" "task1-run-1" "default" c2RunSpec
      (some (c2TaskSpec, { retryCount := some 0 })) {} =
      .createRunAndPatch c2RetryBody c2RetryPatch ∧
    c2RetryBody.metadata.ownerReferences = [] := by
  constructor
  · rfl
  · rfl

/-- C2 amended: only the first child run (`task_created`, lines 79-86)
carries exactly one owner reference to the parent task, with
`controller = true` and `blockOwnerDeletion = true`; every retry run
created by `run_phase_changed` carries no owner references. -/
theorem C2_owner_references (name nspace : String) (uid : Option String)
    (tspec : AgentTaskSpec) (agent : AgentSpecData) (body1 : AgentRunBody)
    (st : TaskCreatedStatus)
    (h1 : task_created name nspace uid tspec (some agent) = .ok (body1, st)) :
    (body1.metadata.ownerReferences.length = 1 ∧
     ∀ ref ∈ body1.metadata.ownerReferences,
       ref.controller = true ∧ ref.blockOwnerDeletion = true ∧
       ref.kind = "AgentTask" ∧ ref.name = name ∧ ref.uid = uid) ∧
    (∀ new rname rns rspec task rstatus body2 patch,
       run_phase_changed new rname rns rspec task rstatus =
         .createRunAndPatch body2 patch →
       body2.metadata.ownerReferences = []) := by
  constructor
  · by_cases ha : pyFalsyStrOpt tspec.agentRef
    · rw [task_created, if_pos ha] at h1
      exact absurd h1 (by simp)
    · by_cases hg : pyFalsyStrOpt tspec.goal
      · rw [task_created, if_neg (by simpa using ha), if_pos hg] at h1
        exact absurd h1 (by simp)
      · rw [task_created, if_neg (by simpa using ha), if_neg (by simpa using hg)] at h1
        simp only [Except.ok.injEq, Prod.mk.injEq] at h1
        obtain ⟨hb, _⟩ := h1
        rw [← hb]
        refine ⟨rfl, ?_⟩
        intro ref href
        simp only [List.mem_singleton] at href
        subst href
        exact ⟨rfl, rfl, rfl, rfl, rfl⟩
  · intro new rname rns rspec task rstatus body2 patch h2
    unfold run_phase_changed at h2
    by_cases hn : new ≠ "Completed" ∧ new ≠ "Failed"
    · rw [if_pos hn] at h2
      exact absurd h2 (by simp)
    · rw [if_neg hn] at h2
      by_cases htr : pyFalsyStrOpt rspec.taskRef
      · rw [if_pos htr] at h2
        exact absurd h2 (by simp)
      · rw [if_neg (by simpa using htr)] at h2
        rcases task with _ | ⟨tsp, tst⟩
        · exact absurd h2 (by simp)
        · simp only [] at h2
          by_cases hc : new = "Completed"
          · rw [if_pos hc] at h2
            exact absurd h2 (by simp)
          · rw [if_neg hc] at h2
            by_cases hr : tst.retryCount.getD 0 < tsp.maxRetries.getD 3
            · rw [if_pos hr] at h2
              simp only [ReconcileAction.createRunAndPatch.injEq] at h2
              rw [← h2.1]
            · rw [if_neg hr] at h2
              exact absurd h2 (by simp)

/-- C2 amended-claim witness: the concrete first-run creation, with the
theorem's hypothesis discharged by computation. -/
theorem C2_owner_references_witness :
    task_created "task1" "default" (some "uid1") c2TaskSpec (some {}) =
      .ok (c2Run1Body, c2Run1Status) ∧
    c2Run1Body.metadata.ownerReferences.length = 1 := by
  have h : task_created "task1" "default" (some "uid1") c2TaskSpec (some {}) =
      .ok (c2Run1Body, c2Run1Status) := by
    unfold task_created
    simp [c2TaskSpec, pyFalsyStrOpt, c2Run1Body, c2Run1Status, c2OwnerRef]
  exact ⟨h, (C2_owner_references "task1" "default" (some "uid1") c2TaskSpec {}
    c2Run1Body c2Run1Status h).1.1⟩

/-- C4: when a child run reaches `Failed` and `retryCount < maxRetries`,
the reconciler creates `<task>-run-<retryCount+2>` whose effective spec
(`agentRef`, `taskRef`, `goal`, `context`, `maxSteps`, `timeout`) matches
the failed run's, patches the task's `currentRun`, increments `retryCount`
and keeps `phase = Running`; when `retryCount ≥ maxRetries` it instead
patches the task `Failed`, copies the run's error (defaulting to
`"Unknown error"`), sets `completionTime`, and creates no run.  The two
agreement hypotheses hold for every reconciler-created run, whose `goal`
and `context` are copied from the task (`task_created` and the retry body
both read them from the task spec). -/
theorem C4_retry_behavior (rname rns : String) (rspec : AgentRunSpec)
    (tspec : AgentTaskSpec) (tstatus : TaskStatusData) (rstatus : RunStatusData)
    (htr : pyFalsyStrOpt rspec.taskRef = false)
    (hgoal : tspec.goal = rspec.goal)
    (hctx : tspec.context.getD (.obj .nil) = rspec.context) :
    (tstatus.retryCount.getD 0 < tspec.maxRetries.getD 3 →
      ∃ body patch,
        run_phase_changed "Failed" rname rns rspec (some (tspec, tstatus)) rstatus =
          .createRunAndPatch body patch ∧
        body.metadata.name = rspec.taskRef.getD "" ++ "-run-" ++
          toString (tstatus.retryCount.getD 0 + 2) ∧
        body.spec.agentRef = rspec.agentRef ∧
        body.spec.taskRef = rspec.taskRef ∧
        body.spec.goal = rspec.goal ∧
        body.spec.context = rspec.context ∧
        body.spec.maxSteps = some (rspec.maxSteps.getD 10) ∧
        body.spec.timeout = some (rspec.timeout.getD 300) ∧
        patch.phase = "Running" ∧
        patch.currentRun = some body.metadata.name ∧
        patch.retryCount = some (tstatus.retryCount.getD 0 + 1)) ∧
    (¬ tstatus.retryCount.getD 0 < tspec.maxRetries.getD 3 →
      run_phase_changed "Failed" rname rns rspec (some (tspec, tstatus)) rstatus =
        .patchTask
          { phase := "Failed"
            error := some (rstatus.error.getD "Unknown error")
            completionTime := true }) := by
  have htaskref : rspec.taskRef = some (rspec.taskRef.getD "") := by
    rcases h : rspec.taskRef with _ | s
    · rw [h] at htr
      simp [pyFalsyStrOpt] at htr
    · rfl
  constructor
  · intro hlt
    unfold run_phase_changed
    rw [if_neg (by simp), if_neg (by simp [htr])]
    simp only []
    rw [if_neg (by decide), if_pos hlt]
    exact ⟨_, _, rfl, rfl, rfl, htaskref.symm, hgoal, hctx, rfl, rfl, rfl, rfl, rfl⟩
  · intro hge
    unfold run_phase_changed
    rw [if_neg (by simp), if_neg (by simp [htr])]
    simp only []
    rw [if_neg (by decide), if_neg hge]

/-- C4 witness: a concrete failed child run with `retryCount = 1 < 3`
creates `task1-run-3` with the failed run's effective spec, and the same
scenario at `retryCount = 3` only patches the task `Failed`. -/
theorem C4_retry_behavior_witness :
    ((0 : Nat) < 3 ∧ pyFalsyStrOpt c2RunSpec.taskRef = false ∧
      c2TaskSpec.goal = c2RunSpec.goal ∧
      c2TaskSpec.context.getD (.obj .nil) = c2RunSpec.context) ∧
    (∃ body patch,
      run_phase_changed "Failed" "task1-run-1" "default" c2RunSpec
          (some (c2TaskSpec, { retryCount := some 0 })) {} =
        .createRunAndPatch body patch ∧
      body.metadata.name = c2RunSpec.taskRef.getD "" ++ "-run-" ++
        toString ((some 0 : Option Nat).getD 0 + 2) ∧
      body.spec.agentRef = c2RunSpec.agentRef ∧
      body.spec.taskRef = c2RunSpec.taskRef ∧
      body.spec.goal = c2RunSpec.goal ∧
      body.spec.context = c2RunSpec.context ∧
      body.spec.maxSteps = some (c2RunSpec.maxSteps.getD 10) ∧
      body.spec.timeout = some (c2RunSpec.timeout.getD 300) ∧
      patch.phase = "Running" ∧
      patch.currentRun = some body.metadata.name ∧
      patch.retryCount = some ((some 0 : Option Nat).getD 0 + 1)) := by
  refine ⟨⟨by decide, rfl, rfl, rfl⟩, ?_⟩
  exact (C4_retry_behavior "task1-run-1" "default" c2RunSpec c2TaskSpec
    { retryCount := some 0 } {} rfl rfl rfl).1 (by decide)

/-- C6: resolving an unregistered tool name yields
`success=false, error="Unknown tool: <name>"` from the sandbox executor,
and the engine treats that result as an observation: it appends one
`tool_result` history entry with `success=false` and loops back to
planning, so a follow-up `finish` decision completes the run with exactly
that one failed `tool_result` in its history. -/
theorem C6_unknown_tool (tools : List ToolDefinition) (nm : String) (args : Json)
    (tmo : ℚ) (runExec : ToolDefinition → Json → ℚ → ExecutionResult)
    (hunk : get_tool tools nm = none)
    (agentRef : String) (maxSteps k : Nat) (timeout : ℚ) (env : RunEnv)
    (r1 r2 : PlannerResponse)
    (hms : maxSteps = k + 2)
    (hp1 : env.planner 1 = .ok r1) (ha1 : r1.action = "tool_call")
    (hp2 : env.planner 2 = .ok r2) (ha2 : r2.action = "finish")
    (htool : env.toolAt 1 = .ok (execute_tool tools nm args tmo runExec))
    (hto1 : env.elapsedAt 1 ≤ timeout) (hto2 : env.elapsedAt 2 ≤ timeout) :
    execute_tool tools nm args tmo runExec =
      { success := false, error := some ("Unknown tool: " ++ nm) } ∧
    (run_created agentRef maxSteps timeout true env).phase = "Completed" ∧
    ((run_created agentRef maxSteps timeout true env).history.filter
        fun e => e.type == "tool_result") =
      [⟨1, "tool_result", .toolResult r1.tool_name false none
        (some ("Unknown tool: " ++ nm))⟩] := by
  have hexec : execute_tool tools nm args tmo runExec =
      { success := false, error := some ("Unknown tool: " ++ nm) } := by
    unfold execute_tool
    rw [hunk]
  have hrun : run_created agentRef maxSteps timeout true env =
      runLoop env timeout maxSteps maxSteps 0 runAcc0 := by
    rw [run_created]
    exact if_pos rfl
  subst hms
  rw [hrun, show k + 2 = (k + 1) + 1 from rfl, runLoop]
  simp only [Nat.zero_add]
  rw [if_neg (not_lt.mpr hto1)]
  simp only [hp1, ha1]
  rw [if_neg (show ¬(("tool_call" : String) = "finish") by decide)]
  simp only [if_true]
  rw [htool, hexec]
  simp only []
  rw [runLoop]
  simp only []
  rw [if_neg (not_lt.mpr hto2)]
  simp only [hp2, ha2, if_true]
  refine ⟨trivial, rfl, ?_⟩
  simp [completeResult, appendHist, runAcc0, List.filter_cons, truncOut]

/-- C6 witness: with an empty tool registry, calling `nope` produces the
`Unknown tool: nope` failure and the two-iteration run completes with
exactly that one failed `tool_result` entry. -/
theorem C6_unknown_tool_witness :
    execute_tool [] "nope" (.obj .nil) 5 (fun _ _ _ => { success := true }) =
      { success := false, error := some ("Unknown tool: " ++ "nope") } ∧
    (run_created "demo" 2 100 true c6Env).phase = "Completed" ∧
    ((run_created "demo" 2 100 true c6Env).history.filter
        fun e => e.type == "tool_result") =
      [⟨1, "tool_result", .toolResult c6R1.tool_name false none
        (some ("Unknown tool: " ++ "nope"))⟩] :=
  C6_unknown_tool [] "nope" (.obj .nil) 5 (fun _ _ _ => { success := true })
    rfl "demo" 2 0 100 c6Env c6R1 c6R2 rfl rfl rfl rfl rfl rfl
    (show (2 : ℚ) ≤ 100 by decide) (show (2 : ℚ) ≤ 100 by decide)

/-- C3 counterexample: the reply `"42"` is non-conforming model output, yet
it does cause an exception and a Failed run — `json.loads` succeeds with a
non-dict, `data.get("action", ...)` raises `AttributeError`, the exception
propagates out of the planner, and the engine's outer handler marks the run
Failed.  This refutes the claim's closing sentence that non-conforming
model output never causes a parse exception or a Failed run. -/
theorem C3_counterexample :
    parse_response "42" 0 = .error "'int' object has no attribute 'get'" ∧
    (run_created "demo" 5 100 true c3BadEnv).phase = "Failed" ∧
    (run_created "demo" 5 100 true c3BadEnv).error =
      some "'int' object has no attribute 'get'" :=
  ⟨rfl, rfl, rfl⟩

/-- C3 (amended to replies that are not valid JSON at all): whenever the
stripped content fails `json.loads`, `_parse_response` returns the
`finish` recovery decision whose `final_answer` is that stripped content,
and a run whose first planner answer is that decision terminates Completed
in one step with `result.output` equal to the final answer. -/
theorem C3_parse_failure_recovery (s : String) (tok : Nat)
    (hfail : loads (processContent s) = none)
    (agentRef : String) (maxSteps k : Nat) (timeout : ℚ) (env : RunEnv)
    (hms : maxSteps = k + 1)
    (hp1 : env.planner 1 =
      match parse_response s tok with
      | .ok r => .ok r
      | .error e => .err e)
    (hto1 : env.elapsedAt 1 ≤ timeout) :
    parse_response s tok = .ok
      { action := "finish"
        thought := .str "Failed to parse response, treating as final answer"
        final_answer := .str (String.mk (processContent s))
        tokens_used := tok } ∧
    (run_created agentRef maxSteps timeout true env).phase = "Completed" ∧
    (run_created agentRef maxSteps timeout true env).result =
      some ⟨true, .str (String.mk (processContent s)), 1⟩ := by
  have hpr : parse_response s tok = .ok
      { action := "finish"
        thought := .str "Failed to parse response, treating as final answer"
        final_answer := .str (String.mk (processContent s))
        tokens_used := tok } := by
    unfold parse_response
    simp only [hfail]
  have hrun : run_created agentRef maxSteps timeout true env =
      runLoop env timeout maxSteps maxSteps 0 runAcc0 := by
    rw [run_created]
    exact if_pos rfl
  subst hms
  rw [hrun, runLoop]
  simp only [Nat.zero_add]
  rw [if_neg (not_lt.mpr hto1)]
  rw [hp1, hpr]
  simp only []
  simp only [if_true]
  exact ⟨trivial, rfl, rfl⟩

/-- C3 witness: the spec's example — the non-JSON reply `"hello world"`
parses to the `finish` recovery decision and the run ends Completed in one
step with that answer as `result.output`. -/
theorem C3_parse_failure_recovery_witness :
    parse_response "hello world" 7 = .ok
      { action := "finish"
        thought := .str "Failed to parse response, treating as final answer"
        final_answer := .str (String.mk (processContent "hello world"))
        tokens_used := 7 } ∧
    (run_created "demo" 1 100 true c3Env).phase = "Completed" ∧
    (run_created "demo" 1 100 true c3Env).result =
      some ⟨true, .str (String.mk (processContent "hello world")), 1⟩ :=
  C3_parse_failure_recovery "hello world" 7 rfl "demo" 1 0 100 c3Env rfl rfl
    (show (0 : ℚ) ≤ 100 by decide)

/-- C7: parsing the history-replay serialization of a `tool_call` decision
(`json.dumps({"action": "tool_call", "thought": t, "tool": n, "args": a})`,
lines 128-134) with `_parse_response` reproduces an equal decision —
action `tool_call`, thought `t`, tool name `n`, tool args `a`. -/
theorem C7_history_replay_roundtrip (t n : String) (a : JsonObj) (tok : Nat) :
    parse_response (serialize_tool_call_entry t n a) tok = .ok
      { action := "tool_call"
        thought := .str t
        tool_name := .str n
        tool_args := .obj a
        tokens_used := tok } := by
  unfold parse_response serialize_tool_call_entry
  rw [string_mk_data] at *
  rw [show processContent (String.mk (dumpsV (Json.obj (.cons "action"
      (.str "tool_call") (.cons "thought" (.str t) (.cons "tool" (.str n)
        (.cons "args" (.obj a) .nil))))))) = dumpsV (Json.obj (.cons "action"
      (.str "tool_call") (.cons "thought" (.str t) (.cons "tool" (.str n)
        (.cons "args" (.obj a) .nil))))) from processContent_dumps_obj _]
  simp only [loads_dumps]
  simp only [JsonObj.getD, JsonObj.get?, Json.eqStr]
  simp
